import Mathlib

/-!
# Topic feed extraction (`xiaohongshu/topic.go`)

A shallow embedding of `TopicAction.GetTopicFeeds` and of the pieces of its
environment that decide what it returns:

* the page state `window.__INITIAL_STATE__` as a tree of JavaScript values,
  with the truthiness test, property reads, `Object.keys`, `Array.join` and
  `JSON.stringify` that the four page scripts use;
* the text decoder `json.Unmarshal` for the targets `TopicInfo` and
  `[]TopicFeed` (grammar check first, then reflection-style assignment with
  exact-then-case-insensitive key matching);
* the browser driver calls `MustNavigate`, `MustWaitStable`, `MustWait`
  and `MustEval`, which abort the call with a panic when the driver reports
  an error;
* the log lines, kept as the format string and the arguments of each call.

Modelling limits: numbers of the page state are safe integers (of absolute
value at most `Number.MAX_SAFE_INTEGER`, which `JSON.stringify` writes with
all their decimal digits), strings are sequences of Unicode scalar values,
all four scripts see one and the same state tree, and resource limits
(memory, the decoder's nesting limit) are not represented.
-/

namespace Xhs

/-! ## JavaScript values of the page state -/

/-- The constant `Number.MAX_SAFE_INTEGER`, 2^53 - 1. -/
def maxSafeInteger : Nat := 9007199254740991

/-- A safe integer (`Number.isSafeInteger`): an integer of absolute value at
most 2^53 - 1. Every such integer is a double, and no other double rounds to
its decimal digits. -/
structure SafeInt where
  val : Int
  safe : val.natAbs ≤ maxSafeInteger

/-- A value of the page's state tree. Numbers are safe integers. The
property list of an object is in enumeration order. -/
inductive JSVal where
  | undefined
  | null
  | bool (b : Bool)
  | num (n : SafeInt)
  | str (s : String)
  | arr (xs : List JSVal)
  | obj (props : List (String × JSVal))

/-- An exception thrown while a page script runs. -/
inductive JSError where
  | typeError
  deriving DecidableEq, Repr

/-- The test `v !== undefined`. -/
def JSVal.isDefined : JSVal → Bool
  | .undefined => false
  | _ => true

/-- JavaScript truthiness (`ToBoolean`), as used by `&&`, `!` and `if`. -/
def truthy : JSVal → Bool
  | .undefined => false
  | .null => false
  | .bool b => b
  | .num n => n.val != 0
  | .str s => s != ""
  | .arr _ => true
  | .obj _ => true

/-- The property read `v.k` for the keys the scripts name (`topic`,
`topicData`, `topicNotes`, `value`, `_value`, `pageInfo`): reading from
`undefined` or `null` throws, an object answers with its own property or
`undefined`, and arrays and primitives have no such member. -/
def getProp (v : JSVal) (k : String) : Except JSError JSVal :=
  match v with
  | .undefined => .error .typeError
  | .null => .error .typeError
  | .obj props => .ok ((props.lookup k).getD .undefined)
  | _ => .ok .undefined

/-- Number of UTF-16 code units of a string (the `length` of a JS string). -/
def utf16Length (s : String) : Nat :=
  (s.data.map (fun c => if c.val.toNat < 0x10000 then 1 else 2)).sum

/-- The index keys "0", "1", ... of an array-like of the given length. -/
def indexKeys (n : Nat) : List String :=
  (List.range n).map (fun i => String.mk (Nat.toDigits 10 i))

/-- The call `Object.keys(v)`: own enumerable string keys, in order. -/
def objectKeys (v : JSVal) : Except JSError (List String) :=
  match v with
  | .undefined => .error .typeError
  | .null => .error .typeError
  | .bool _ => .ok []
  | .num _ => .ok []
  | .str s => .ok (indexKeys (utf16Length s))
  | .arr xs => .ok (indexKeys xs.length)
  | .obj props => .ok (props.map Prod.fst)

/-- The call `keys.join(sep)` on an array of strings. -/
def joinKeys (sep : String) (keys : List String) : String :=
  sep.intercalate keys

/-! ### `JSON.stringify` -/

/-- Lower-case hexadecimal digit. -/
def hexDigit (n : Nat) : Char :=
  if n < 10 then Char.ofNat (48 + n) else Char.ofNat (87 + n)

/-- One character of a string, as `JSON.stringify` writes it inside quotes. -/
def quoteChar (c : Char) : List Char :=
  if c = '"' then ['\\', '"']
  else if c = '\\' then ['\\', '\\']
  else if c = '\x08' then ['\\', 'b']
  else if c = '\x0c' then ['\\', 'f']
  else if c = '\n' then ['\\', 'n']
  else if c = '\r' then ['\\', 'r']
  else if c = '\t' then ['\\', 't']
  else if c.val.toNat < 0x20 then
    ['\\', 'u', '0', '0', hexDigit (c.val.toNat / 16), hexDigit (c.val.toNat % 16)]
  else [c]

/-- The body of a quoted string, without the surrounding quotes. -/
def quoteBody : List Char → List Char
  | [] => []
  | c :: cs => quoteChar c ++ quoteBody cs

/-- The operation `QuoteJSONString`. -/
def quoteJSONString (s : String) : List Char :=
  '"' :: (quoteBody s.data ++ ['"'])

/-- The text of a safe integer (`Number::toString`): a minus sign for a
negative one, then all decimal digits of its absolute value. -/
def numberToString (n : SafeInt) : List Char :=
  if n.val < 0 then '-' :: Nat.toDigits 10 n.val.natAbs else Nat.toDigits 10 n.val.natAbs

/-- Items separated by commas. -/
def joinComma : List (List Char) → List Char
  | [] => []
  | [x] => x
  | x :: y :: rest => x ++ ',' :: joinComma (y :: rest)

mutual
/-- The characters `JSON.stringify(v)` produces, or `none` when it answers
`undefined`. -/
def stringifyChars : JSVal → Option (List Char)
  | .undefined => none
  | .null => some ['n', 'u', 'l', 'l']
  | .bool true => some ['t', 'r', 'u', 'e']
  | .bool false => some ['f', 'a', 'l', 's', 'e']
  | .num n => some (numberToString n)
  | .str s => some (quoteJSONString s)
  | .arr xs => some ('[' :: (joinComma (stringifyElems xs) ++ [']']))
  | .obj props => some ('\x7b' :: (joinComma (stringifyProps props) ++ ['\x7d']))
/-- Array elements: `undefined` is written as `null`. -/
def stringifyElems : List JSVal → List (List Char)
  | [] => []
  | x :: xs => (stringifyChars x).getD ['n', 'u', 'l', 'l'] :: stringifyElems xs
/-- Object properties: a property whose value is `undefined` is left out. -/
def stringifyProps : List (String × JSVal) → List (List Char)
  | [] => []
  | (k, v) :: rest =>
    match stringifyChars v with
    | none => stringifyProps rest
    | some t => (quoteJSONString k ++ ':' :: t) :: stringifyProps rest
end

/-- The call `JSON.stringify(v)`; `none` stands for `undefined`. -/
def JSON.stringify (v : JSVal) : Option String :=
  (stringifyChars v).map String.mk

/-! ### The four page scripts -/

/-- The result a script hands back to the driver, read with `.String()`: the
returned string, or the rendering of a missing value. -/
def gsonString : Option String → String
  | some s => s
  | none => "<nil>"

/-- The unwrap `c.value !== undefined ? c.value : c._value`. -/
def unwrapContainer (c : JSVal) : Except JSError JSVal := do
  let value ← getProp c "value"
  if value.isDefined then pure value else getProp c "_value"

/-- The topic-info locator script (lines 84-95). -/
def topicInfoScript (state : JSVal) : Except JSError (Option String) :=
  if truthy state then do
    let topic ← getProp state "topic"
    if truthy topic then do
      let topicData ← getProp topic "topicData"
      if truthy topicData then do
        let data ← unwrapContainer topicData
        if truthy data then do
          let pageInfo ← getProp data "pageInfo"
          if truthy pageInfo then pure (JSON.stringify pageInfo) else pure (some "")
        else pure (some "")
      else pure (some "")
    else pure (some "")
  else pure (some "")

/-- The topic-info diagnostic script (lines 99-104). -/
def topicDebugScript (state : JSVal) : Except JSError (Option String) :=
  if !truthy state then pure (some "window.__INITIAL_STATE__ 不存在")
  else do
    let topic ← getProp state "topic"
    if !truthy topic then do
      let keys ← objectKeys state
      pure (some ("window.__INITIAL_STATE__.topic 不存在, 顶层keys: " ++ joinKeys ", " keys))
    else do
      let topicData ← getProp topic "topicData"
      if !truthy topicData then do
        let keys ← objectKeys topic
        pure (some ("window.__INITIAL_STATE__.topic.topicData 不存在, topic keys: "
          ++ joinKeys ", " keys))
      else pure (some "topicData 数据为空")

/-- The feed-list locator script (lines 118-129). -/
def feedsScript (state : JSVal) : Except JSError (Option String) :=
  if truthy state then do
    let topic ← getProp state "topic"
    if truthy topic then do
      let topicNotes ← getProp topic "topicNotes"
      if truthy topicNotes then do
        let feedsData ← unwrapContainer topicNotes
        if truthy feedsData then pure (JSON.stringify feedsData) else pure (some "")
      else pure (some "")
    else pure (some "")
  else pure (some "")

/-- The feed-list diagnostic script (lines 133-138). -/
def feedsDebugScript (state : JSVal) : Except JSError (Option String) :=
  if !truthy state then pure (some "window.__INITIAL_STATE__ 不存在")
  else do
    let topic ← getProp state "topic"
    if !truthy topic then pure (some "window.__INITIAL_STATE__.topic 不存在")
    else do
      let topicNotes ← getProp topic "topicNotes"
      if !truthy topicNotes then pure (some "window.__INITIAL_STATE__.topic.topicNotes 不存在")
      else pure (some "topicNotes 数据为空")

/-! ## JSON text, as `encoding/json` reads it -/

/-- A parsed JSON value. A number keeps its literal; an object keeps its
members in text order, repeated keys included. -/
inductive Json where
  | null
  | bool (b : Bool)
  | num (lit : List Char)
  | str (s : String)
  | arr (elems : List Json)
  | obj (members : List (String × Json))

/-- The white space the scanner skips between tokens. -/
def isSpace (c : Char) : Bool :=
  c = ' ' || c = '\t' || c = '\r' || c = '\n'

/-- Drop leading white space. -/
def skipSpace : List Char → List Char
  | [] => []
  | c :: cs => if isSpace c then skipSpace cs else c :: cs

/-- Value of a hexadecimal digit, either case. -/
def hexVal (c : Char) : Option Nat :=
  if 48 ≤ c.val.toNat ∧ c.val.toNat ≤ 57 then some (c.val.toNat - 48)
  else if 97 ≤ c.val.toNat ∧ c.val.toNat ≤ 102 then some (c.val.toNat - 87)
  else if 65 ≤ c.val.toNat ∧ c.val.toNat ≤ 70 then some (c.val.toNat - 55)
  else none

/-- The character a single-letter escape stands for. -/
def unescape (e : Char) : Option Char :=
  if e = '"' then some '"'
  else if e = '\\' then some '\\'
  else if e = '/' then some '/'
  else if e = 'b' then some '\x08'
  else if e = 'f' then some '\x0c'
  else if e = 'n' then some '\n'
  else if e = 'r' then some '\r'
  else if e = 't' then some '\t'
  else none

/-- Put a decoded character in front of the rest of a string body. -/
def consChar (c : Char) : Option (List Char × List Char) → Option (List Char × List Char)
  | some (s, r) => some (c :: s, r)
  | none => none

/-- The replacement character U+FFFD. -/
def replacementChar : Char := Char.ofNat 0xfffd

/-- A pending `\u` escape from the surrogate range is replaced by U+FFFD
when what follows does not complete it. -/
def flushPending (pending : Option Nat) (r : Option (List Char × List Char)) :
    Option (List Char × List Char) :=
  match pending with
  | some _ => consChar replacementChar r
  | none => r

/-- The character of a surrogate pair (`utf16.DecodeRune`), when the pending
escape is a high surrogate and the next escape a low one. -/
def pairWith (pending : Option Nat) (rr : Nat) : Option Char :=
  match pending with
  | some hi =>
    if hi < 0xdc00 ∧ 0xdc00 ≤ rr ∧ rr < 0xe000 then
      some (Char.ofNat ((hi - 0xd800) * 1024 + (rr - 0xdc00) + 0x10000))
    else none
  | none => none

/-- Where the reader stands inside a string literal: between characters,
after a backslash, or inside a `\u` escape with `digits` hexadecimal digits
read so far and their value `acc`. -/
inductive StrState where
  | plain
  | esc
  | hex (digits : Nat) (acc : Nat)

/-- Read a string literal after its opening quote, one character at a time:
the decoded characters and the text after the closing quote. Raw control
characters and unknown escapes are rejected. The first argument is a `\u`
escape from the surrogate range that was just read: it is combined with a
directly following low surrogate escape and becomes the replacement
character otherwise. -/
def scanString (pending : Option Nat) : StrState → List Char → Option (List Char × List Char)
  | _, [] => none
  | .plain, c :: rest =>
    if c = '"' then flushPending pending (some ([], rest))
    else if c = '\\' then scanString pending .esc rest
    else if c.val.toNat < 0x20 then none
    else flushPending pending (consChar c (scanString none .plain rest))
  | .esc, c :: rest =>
    if c = 'u' then scanString pending (.hex 0 0) rest
    else
      match unescape c with
      | some ch => flushPending pending (consChar ch (scanString none .plain rest))
      | none => none
  | .hex digits acc, c :: rest =>
    match hexVal c with
    | none => none
    | some d =>
      if digits < 3 then scanString pending (.hex (digits + 1) (acc * 16 + d)) rest
      else
        match pairWith pending (acc * 16 + d) with
        | some ch => consChar ch (scanString none .plain rest)
        | none =>
          if 0xd800 ≤ acc * 16 + d ∧ acc * 16 + d < 0xe000 then
            flushPending pending (scanString (some (acc * 16 + d)) .plain rest)
          else
            flushPending pending
              (consChar (Char.ofNat (acc * 16 + d)) (scanString none .plain rest))

/-- Read a string literal after its opening quote. -/
def parseStringBody (cs : List Char) : Option (List Char × List Char) :=
  scanString none .plain cs

/-- Decimal digit test. -/
def isDigit (c : Char) : Bool :=
  48 ≤ c.val.toNat && c.val.toNat ≤ 57

/-- Split off the leading run of digits. -/
def spanDigits : List Char → List Char × List Char
  | [] => ([], [])
  | c :: cs =>
    if isDigit c then ((spanDigits cs).1.cons c, (spanDigits cs).2) else ([], c :: cs)

/-- The optional exponent of a number literal. -/
def parseExp (acc cs : List Char) : Option (List Char × List Char) :=
  match cs with
  | [] => some (acc, [])
  | e :: r =>
    if e = 'e' ∨ e = 'E' then
      match r with
      | [] => none
      | s :: r1 =>
        if s = '+' ∨ s = '-' then
          if (spanDigits r1).1 = [] then none
          else some (acc ++ e :: s :: (spanDigits r1).1, (spanDigits r1).2)
        else
          if (spanDigits r).1 = [] then none
          else some (acc ++ e :: (spanDigits r).1, (spanDigits r).2)
    else some (acc, cs)

/-- The optional fraction of a number literal, then the exponent. -/
def parseFrac (acc cs : List Char) : Option (List Char × List Char) :=
  match cs with
  | [] => some (acc, [])
  | p :: r =>
    if p = '.' then
      if (spanDigits r).1 = [] then none
      else parseExp (acc ++ p :: (spanDigits r).1) (spanDigits r).2
    else parseExp acc cs

/-- The integer part of a number literal after the sign. -/
def parseDigits (sign cs : List Char) : Option (List Char × List Char) :=
  match cs with
  | [] => none
  | d :: r =>
    if d = '0' then parseFrac (sign ++ [d]) r
    else if isDigit d then parseFrac (sign ++ d :: (spanDigits r).1) (spanDigits r).2
    else none

/-- Read a number literal: the literal and the text after it. -/
def parseNumber (cs : List Char) : Option (List Char × List Char) :=
  match cs with
  | [] => none
  | c :: r => if c = '-' then parseDigits [c] r else parseDigits [] cs

/-- Attach a parsed item in front of the items that follow. -/
def consItem {α : Type} (x : α) : Option (List α × List Char) → Option (List α × List Char)
  | some (xs, r) => some (x :: xs, r)
  | none => none

/-- Match a fixed word at the head of the text. -/
def expectWord (w cs : List Char) : Option (List Char) :=
  if w.isPrefixOf cs then some (cs.drop w.length) else none

mutual
/-- Read one JSON value at the head of the text (no leading space). The
first argument bounds the number of nested reads. -/
def parseValue : Nat → List Char → Option (Json × List Char)
  | 0, _ => none
  | fuel + 1, cs =>
    match cs with
    | [] => none
    | c :: rest =>
      if c = '\x7b' then
        match skipSpace rest with
        | [] => none
        | c1 :: rest1 =>
          if c1 = '\x7d' then some (Json.obj [], rest1)
          else
            match parseMembers fuel (c1 :: rest1) with
            | some (ms, r) => some (Json.obj ms, r)
            | none => none
      else if c = '[' then
        match skipSpace rest with
        | [] => none
        | c1 :: rest1 =>
          if c1 = ']' then some (Json.arr [], rest1)
          else
            match parseElems fuel (c1 :: rest1) with
            | some (xs, r) => some (Json.arr xs, r)
            | none => none
      else if c = '"' then
        match parseStringBody rest with
        | some (s, r) => some (Json.str (String.mk s), r)
        | none => none
      else if c = 't' then
        match expectWord ['r', 'u', 'e'] rest with
        | some r => some (Json.bool true, r)
        | none => none
      else if c = 'f' then
        match expectWord ['a', 'l', 's', 'e'] rest with
        | some r => some (Json.bool false, r)
        | none => none
      else if c = 'n' then
        match expectWord ['u', 'l', 'l'] rest with
        | some r => some (Json.null, r)
        | none => none
      else
        match parseNumber cs with
        | some (lit, r) => some (Json.num lit, r)
        | none => none
/-- Read the elements of a non-empty array up to and including `]`. -/
def parseElems : Nat → List Char → Option (List Json × List Char)
  | 0, _ => none
  | fuel + 1, cs =>
    match parseValue fuel cs with
    | none => none
    | some (v, rest) =>
      match skipSpace rest with
      | [] => none
      | c :: rest1 =>
        if c = ',' then consItem v (parseElems fuel (skipSpace rest1))
        else if c = ']' then some ([v], rest1)
        else none
/-- Read the members of a non-empty object up to and including the closing
brace. -/
def parseMembers : Nat → List Char → Option (List (String × Json) × List Char)
  | 0, _ => none
  | fuel + 1, cs =>
    match cs with
    | [] => none
    | q :: rest =>
      if q = '"' then
        match parseStringBody rest with
        | none => none
        | some (k, rest1) =>
          match skipSpace rest1 with
          | [] => none
          | c1 :: rest2 =>
            if c1 = ':' then
              match parseValue fuel (skipSpace rest2) with
              | none => none
              | some (v, rest3) =>
                match skipSpace rest3 with
                | [] => none
                | c2 :: rest4 =>
                  if c2 = ',' then
                    consItem (String.mk k, v) (parseMembers fuel (skipSpace rest4))
                  else if c2 = '\x7d' then some ([(String.mk k, v)], rest4)
                  else none
            else none
      else none
end

/-- The grammar check and parse of a whole text: one value, white space
allowed around it, nothing else. -/
def parseJson (text : String) : Option Json :=
  match parseValue (text.data.length + 1) (skipSpace text.data) with
  | some (j, rest) => if skipSpace rest = [] then some j else none
  | none => none

/-! ## The Go records and their decoding -/

/-- The record `TopicFeedUser`. -/
structure TopicFeedUser where
  Nickname : String
  AvatarURL : String
  IsForbidden : Bool
  deriving DecidableEq, Repr

/-- The record `TopicInteractionInfo`. -/
structure TopicInteractionInfo where
  LikeText : String
  CollectText : String
  CommentText : String
  deriving DecidableEq, Repr

/-- The record `TopicFeed`; `Type_` is the Go field `Type`, `CreateTime` an
`int64`. -/
structure TopicFeed where
  Type_ : String
  Title : String
  Desc : String
  User : TopicFeedUser
  InteractionInfo : TopicInteractionInfo
  CreateTime : Int
  CursorScore : String
  deriving DecidableEq, Repr

/-- The record `TopicInfo`. -/
structure TopicInfo where
  Name : String
  Desc : String
  ViewNumText : String
  DiscussCommentNum : String
  deriving DecidableEq, Repr

/-- The record `TopicResponse`. -/
structure TopicResponse where
  Topic : TopicInfo
  Feeds : List TopicFeed
  Count : Nat
  deriving DecidableEq, Repr

/-- Zero value of `TopicFeedUser`. -/
def TopicFeedUser.zero : TopicFeedUser := ⟨"", "", false⟩

/-- Zero value of `TopicInteractionInfo`. -/
def TopicInteractionInfo.zero : TopicInteractionInfo := ⟨"", "", ""⟩

/-- Zero value of `TopicFeed`. -/
def TopicFeed.zero : TopicFeed :=
  ⟨"", "", "", TopicFeedUser.zero, TopicInteractionInfo.zero, 0, ""⟩

/-- Zero value of `TopicInfo`. -/
def TopicInfo.zero : TopicInfo := ⟨"", "", "", ""⟩

/-- An error of `json.Unmarshal`: the text is not JSON, or a value does not
fit the Go type it is stored into. -/
inductive JsonErr where
  | malformed
  | typeMismatch (value : String) (target : String)
  deriving DecidableEq, Repr

/-- How a type error names the JSON value. -/
def Json.kindName : Json → String
  | .null => "null"
  | .bool _ => "bool"
  | .num _ => "number"
  | .str _ => "string"
  | .arr _ => "array"
  | .obj _ => "object"

/-- Case folding of one character of an object key, exact for every
character that folds to an ASCII letter (the letters, the Kelvin sign and the
long s). -/
def foldRune (c : Char) : Char :=
  if 97 ≤ c.val.toNat ∧ c.val.toNat ≤ 122 then Char.ofNat (c.val.toNat - 32)
  else if c = Char.ofNat 0x212a then 'K'
  else if c = Char.ofNat 0x17f then 'S'
  else c

/-- Case folding of an object key. -/
def foldName (s : String) : List Char :=
  s.data.map foldRune

/-- The struct field an object key is stored into: the field whose tag is
the key, else the first field whose tag equals the key up to case. -/
def findField (tags : List String) (key : String) : Option String :=
  if tags.contains key then some key
  else tags.find? (fun t => foldName t == foldName key)

/-- The call `strconv.ParseInt(lit, 10, 64)` on a number literal. -/
def parseInt64 (lit : List Char) : Option Int :=
  let neg := lit.head? = some '-'
  let ds := if neg then lit.tail else lit
  if ds ≠ [] ∧ ds.all isDigit then
    let n : Int := (ds.foldl (fun a c => a * 10 + (c.val.toNat - 48)) 0 : Nat)
    let v : Int := if neg then -n else n
    if -9223372036854775808 ≤ v ∧ v ≤ 9223372036854775807 then some v else none
  else none

/-- Store a JSON value into a `string`. -/
def decodeString (j : Json) (cur : String) : Except JsonErr String :=
  match j with
  | .null => .ok cur
  | .str s => .ok s
  | other => .error (.typeMismatch other.kindName "string")

/-- Store a JSON value into a `bool`. -/
def decodeBool (j : Json) (cur : Bool) : Except JsonErr Bool :=
  match j with
  | .null => .ok cur
  | .bool b => .ok b
  | other => .error (.typeMismatch other.kindName "bool")

/-- Store a JSON value into an `int64`. -/
def decodeInt64 (j : Json) (cur : Int) : Except JsonErr Int :=
  match j with
  | .null => .ok cur
  | .num lit =>
    match parseInt64 lit with
    | some n => .ok n
    | none => .error (.typeMismatch ("number " ++ String.mk lit) "int64")
  | other => .error (.typeMismatch other.kindName "int64")

/-- Store the members of an object one after the other, in text order; the
first type error ends the decoding. -/
def decodeMembers {α : Type} (setField : String → Json → α → Except JsonErr α) :
    List (String × Json) → α → Except JsonErr α
  | [], cur => .ok cur
  | (k, v) :: rest, cur =>
    match setField k v cur with
    | .ok next => decodeMembers setField rest next
    | .error e => .error e

/-- Store a JSON value into a struct: `null` leaves it as it is, an object
is stored member by member, anything else is a type error. -/
def decodeStruct {α : Type} (setField : String → Json → α → Except JsonErr α)
    (target : String) (j : Json) (cur : α) : Except JsonErr α :=
  match j with
  | .null => .ok cur
  | .obj ms => decodeMembers setField ms cur
  | other => .error (.typeMismatch other.kindName target)

/-- The JSON tags of `TopicFeedUser`. -/
def topicFeedUserTags : List String := ["nickname", "avatarUrl", "isForbidden"]

/-- The JSON tags of `TopicInteractionInfo`. -/
def topicInteractionInfoTags : List String := ["likeText", "collectText", "commentText"]

/-- The JSON tags of `TopicFeed`. -/
def topicFeedTags : List String :=
  ["type", "title", "desc", "user", "interactionInfo", "createTime", "cursorScore"]

/-- The JSON tags of `TopicInfo`. -/
def topicInfoTags : List String := ["name", "desc", "viewNumText", "discussCommentNumText"]

/-- Store one object member into a `TopicFeedUser`. -/
def TopicFeedUser.setField (key : String) (v : Json) (u : TopicFeedUser) :
    Except JsonErr TopicFeedUser :=
  match findField topicFeedUserTags key with
  | none => .ok u
  | some tag =>
    if tag = "nickname" then (decodeString v u.Nickname).map (fun s => { u with Nickname := s })
    else if tag = "avatarUrl" then
      (decodeString v u.AvatarURL).map (fun s => { u with AvatarURL := s })
    else (decodeBool v u.IsForbidden).map (fun b => { u with IsForbidden := b })

/-- Store one object member into a `TopicInteractionInfo`. -/
def TopicInteractionInfo.setField (key : String) (v : Json) (x : TopicInteractionInfo) :
    Except JsonErr TopicInteractionInfo :=
  match findField topicInteractionInfoTags key with
  | none => .ok x
  | some tag =>
    if tag = "likeText" then (decodeString v x.LikeText).map (fun s => { x with LikeText := s })
    else if tag = "collectText" then
      (decodeString v x.CollectText).map (fun s => { x with CollectText := s })
    else (decodeString v x.CommentText).map (fun s => { x with CommentText := s })

/-- Store one object member into a `TopicFeed`. -/
def TopicFeed.setField (key : String) (v : Json) (f : TopicFeed) : Except JsonErr TopicFeed :=
  match findField topicFeedTags key with
  | none => .ok f
  | some tag =>
    if tag = "type" then (decodeString v f.Type_).map (fun s => { f with Type_ := s })
    else if tag = "title" then (decodeString v f.Title).map (fun s => { f with Title := s })
    else if tag = "desc" then (decodeString v f.Desc).map (fun s => { f with Desc := s })
    else if tag = "user" then
      (decodeStruct TopicFeedUser.setField "xiaohongshu.TopicFeedUser" v f.User).map
        (fun u => { f with User := u })
    else if tag = "interactionInfo" then
      (decodeStruct TopicInteractionInfo.setField "xiaohongshu.TopicInteractionInfo" v
        f.InteractionInfo).map (fun x => { f with InteractionInfo := x })
    else if tag = "createTime" then
      (decodeInt64 v f.CreateTime).map (fun n => { f with CreateTime := n })
    else (decodeString v f.CursorScore).map (fun s => { f with CursorScore := s })

/-- Store one object member into a `TopicInfo`. -/
def TopicInfo.setField (key : String) (v : Json) (t : TopicInfo) : Except JsonErr TopicInfo :=
  match findField topicInfoTags key with
  | none => .ok t
  | some tag =>
    if tag = "name" then (decodeString v t.Name).map (fun s => { t with Name := s })
    else if tag = "desc" then (decodeString v t.Desc).map (fun s => { t with Desc := s })
    else if tag = "viewNumText" then
      (decodeString v t.ViewNumText).map (fun s => { t with ViewNumText := s })
    else (decodeString v t.DiscussCommentNum).map (fun s => { t with DiscussCommentNum := s })

/-- Store a JSON value into a fresh `TopicInfo`. -/
def decodeTopicInfo (j : Json) : Except JsonErr TopicInfo :=
  decodeStruct TopicInfo.setField "xiaohongshu.TopicInfo" j TopicInfo.zero

/-- Store a JSON value into a fresh `TopicFeed` (a new slice element). -/
def decodeTopicFeed (j : Json) : Except JsonErr TopicFeed :=
  decodeStruct TopicFeed.setField "xiaohongshu.TopicFeed" j TopicFeed.zero

/-- Store the elements of an array into a slice of feeds, in order. -/
def decodeFeedElems : List Json → Except JsonErr (List TopicFeed)
  | [] => .ok []
  | x :: xs =>
    match decodeTopicFeed x with
    | .error e => .error e
    | .ok f =>
      match decodeFeedElems xs with
      | .error e => .error e
      | .ok fs => .ok (f :: fs)

/-- Store a JSON value into a nil `[]TopicFeed`. -/
def decodeFeeds (j : Json) : Except JsonErr (List TopicFeed) :=
  match j with
  | .null => .ok []
  | .arr xs => decodeFeedElems xs
  | other => .error (.typeMismatch other.kindName "[]xiaohongshu.TopicFeed")

/-- The call `json.Unmarshal([]byte(text), &topicInfo)` on a zero record. -/
def unmarshalTopicInfo (text : String) : Except JsonErr TopicInfo :=
  match parseJson text with
  | none => .error .malformed
  | some j => decodeTopicInfo j

/-- The call `json.Unmarshal([]byte(text), &feeds)` on a nil slice. -/
def unmarshalFeeds (text : String) : Except JsonErr (List TopicFeed) :=
  match parseJson text with
  | none => .error .malformed
  | some j => decodeFeeds j

/-! ## Log lines, errors and the browser driver -/

/-- The bytes of a Go string (UTF-8). -/
def goBytes (s : String) : List UInt8 :=
  s.data.flatMap String.utf8EncodeChar

/-- The Go expression `len(s)`. -/
def goLen (s : String) : Nat :=
  (goBytes s).length

/-- The Go expression `s[:n]`. -/
def goSliceTo (s : String) (n : Nat) : List UInt8 :=
  (goBytes s).take n

/-- Level of a log line. -/
inductive LogLevel where
  | debug
  | info
  | error
  deriving DecidableEq, Repr

/-- An argument of a log call. -/
inductive LogArg where
  | text (s : String)
  | bytes (b : List UInt8)
  | topicInfo (t : TopicInfo)
  | int (n : Nat)
  deriving DecidableEq, Repr

/-- A call of `logrus.Infof`, `logrus.Errorf` or `logrus.Debugf`. -/
structure LogEntry where
  level : LogLevel
  format : String
  args : List LogArg
  deriving DecidableEq, Repr

/-- The bytes a `%s` argument contributes to the log line. -/
def LogArg.payloadBytes : LogArg → List UInt8
  | .text s => goBytes s
  | .bytes b => b
  | _ => []

/-- An error value returned by `GetTopicFeeds`: the sentinel
`errors.ErrNoFeeds`, a formatted message (`fmt.Errorf` with `%s`), or a
wrapped decoding error (`fmt.Errorf` with `%w`). -/
inductive GoError where
  | ErrNoFeeds
  | errorf (format : String) (arg : String)
  | wrap (format : String) (cause : JsonErr)
  deriving DecidableEq, Repr

/-- An error reported by the browser driver. -/
inductive DriverError where
  | deadlineExceeded
  | other (msg : String)
  deriving DecidableEq, Repr

/-- What a `Must...` call panics with. -/
inductive PanicCause where
  | driver (e : DriverError)
  | script (e : JSError)
  deriving DecidableEq, Repr

/-- The page as the call meets it: what the driver answers to the navigation,
to the wait for a stable page and to the wait for
`window.__INITIAL_STATE__ !== undefined` (`none` is success), and the state
tree the scripts read. -/
structure Page where
  navigate : Option DriverError
  waitStable : Option DriverError
  waitReady : Option DriverError
  state : JSVal

/-- How a call of `GetTopicFeeds` ends: it returns the Go pair
`(*TopicResponse, error)`, or a `Must...` call panics. -/
inductive Outcome where
  | returned (response : Option TopicResponse) (err : Option GoError)
  | panicked (cause : PanicCause)
  deriving DecidableEq, Repr

/-- A run of `GetTopicFeeds`: the log lines written and how the call ends. -/
structure Run where
  logs : List LogEntry
  outcome : Outcome
  deriving DecidableEq, Repr

/-- The function `makeTopicURL`. -/
def makeTopicURL (topicID : String) : String :=
  "https://www.xiaohongshu.com/topic/normal/" ++ topicID

/-- The log line of the feed-list decode failure (lines 146-150). -/
def feedDecodeLog (feedsResult : String) : LogEntry :=
  if goLen feedsResult > 500 then
    ⟨.error, "解析Feed数据失败，原始数据(前500字符): %s...", [.bytes (goSliceTo feedsResult 500)]⟩
  else
    ⟨.error, "解析Feed数据失败，原始数据: %s", [.text feedsResult]⟩

/-- The feed-list stage and the assembly of the response (lines 117-162),
given the log so far and the decoded topic info. -/
def feedStage (state : JSVal) (logs : List LogEntry) (topicInfo : TopicInfo) : Run :=
  match feedsScript state with
  | .error e => ⟨logs, .panicked (.script e)⟩
  | .ok r =>
    let feedsResult := gsonString r
    if feedsResult = "" then
      match feedsDebugScript state with
      | .error e => ⟨logs, .panicked (.script e)⟩
      | .ok d =>
        let debugInfo := gsonString d
        ⟨logs ++ [⟨.error, "话题Feed列表获取失败: %s", [.text debugInfo]⟩],
          .returned none (some .ErrNoFeeds)⟩
    else
      match unmarshalFeeds feedsResult with
      | .error err =>
        ⟨logs ++ [feedDecodeLog feedsResult],
          .returned none (some (.wrap "解析Feed数据失败: %w" err))⟩
      | .ok feeds =>
        ⟨logs ++ [⟨.debug, "成功解析 %d 个话题Feed", [.int feeds.length]⟩],
          .returned (some ⟨topicInfo, feeds, feeds.length⟩) none⟩

/-- The topic-info stage (lines 83-115), followed by the feed-list stage. -/
def topicStage (state : JSVal) (logs : List LogEntry) : Run :=
  match topicInfoScript state with
  | .error e => ⟨logs, .panicked (.script e)⟩
  | .ok r =>
    let topicResult := gsonString r
    if topicResult = "" then
      match topicDebugScript state with
      | .error e => ⟨logs, .panicked (.script e)⟩
      | .ok d =>
        let fullDebug := gsonString d
        ⟨logs ++ [⟨.error, "话题信息获取失败: %s", [.text fullDebug]⟩],
          .returned none (some (.errorf "未找到话题信息: %s" fullDebug))⟩
    else
      match unmarshalTopicInfo topicResult with
      | .error err =>
        ⟨logs ++ [⟨.error, "解析话题信息失败，原始数据: %s", [.text topicResult]⟩],
          .returned none (some (.wrap "解析话题信息失败: %w" err))⟩
      | .ok topicInfo =>
        feedStage state
          (logs ++ [⟨.debug, "解析后的话题信息: %+v", [.topicInfo topicInfo]⟩]) topicInfo

/-- The method `TopicAction.GetTopicFeeds` (lines 65-163): navigation and the
readiness gate with their panics, then the two stages. The fixed two-second
sleep has no effect on the result. -/
def GetTopicFeeds (page : Page) (topicID : String) : Run :=
  let url := makeTopicURL topicID
  let logs : List LogEntry := [⟨.info, "打开话题页面: %s", [.text url]⟩]
  match page.navigate with
  | some e => ⟨logs, .panicked (.driver e)⟩
  | none =>
    match page.waitStable with
    | some e => ⟨logs, .panicked (.driver e)⟩
    | none =>
      match page.waitReady with
      | some e => ⟨logs, .panicked (.driver e)⟩
      | none => topicStage page.state logs

/-- A page on which navigation and both waits succeed, showing the given
state tree. -/
def readyPage (state : JSVal) : Page :=
  ⟨none, none, none, state⟩

/-! ## Relating the page's text to the tree it was written from -/

/-- A text at which a number literal in front of it ends: the end of the
input, or a character that cannot continue a number. -/
def numberEnds : List Char → Bool
  | [] => true
  | c :: _ => !isDigit c && c != '.' && c != 'e' && c != 'E'

/-- What `JSON.stringify` writes for an array element: the text of the
value, `null` for `undefined`. -/
def elemText (v : JSVal) : List Char :=
  (stringifyChars v).getD ['n', 'u', 'l', 'l']

mutual
/-- The JSON value denoted by the text `JSON.stringify` writes for a tree
(`undefined` as an array element reads back as `null`). -/
def toJson : JSVal → Json
  | .undefined => .null
  | .null => .null
  | .bool b => .bool b
  | .num n => .num (numberToString n)
  | .str s => .str s
  | .arr xs => .arr (toJsonElems xs)
  | .obj props => .obj (toJsonProps props)
/-- Elements of an array, in order. -/
def toJsonElems : List JSVal → List Json
  | [] => []
  | x :: xs => toJson x :: toJsonElems xs
/-- Members of an object, in order, without the `undefined` properties. -/
def toJsonProps : List (String × JSVal) → List (String × Json)
  | [] => []
  | (k, v) :: rest =>
    if v.isDefined then (k, toJson v) :: toJsonProps rest else toJsonProps rest
end

/-! ## Fixture state trees -/

/-- The state tree whose `topic.topicData.value.pageInfo` and
`topic.topicNotes.value` are the given values. -/
def stateOf (pageInfo feedList : JSVal) : JSVal :=
  .obj [("topic", .obj [
    ("topicData", .obj [("value", .obj [("pageInfo", pageInfo)])]),
    ("topicNotes", .obj [("value", feedList)])])]

/-- The page info of the end-to-end scenario. -/
def coffeePageInfo : JSVal :=
  .obj [("name", .str "Coffee"), ("desc", .str "d"), ("viewNumText", .str "10万"),
    ("discussCommentNumText", .str "200")]

/-- The feed of the end-to-end scenario. -/
def feedT1 : JSVal :=
  .obj [("type", .str "normal"), ("title", .str "t1")]

/-- The state tree of the end-to-end scenario. -/
def specFixture : JSVal :=
  stateOf coffeePageInfo (.arr [feedT1])

/-- The state tree of the end-to-end scenario without `topicNotes`. -/
def fixtureNoNotes : JSVal :=
  .obj [("topic", .obj [("topicData", .obj [("value", .obj [("pageInfo", coffeePageInfo)])])])]

/-- A state tree whose `topicData` holds `pageInfo` directly, with no
container around it. -/
def fixtureBareLeaf : JSVal :=
  .obj [("topic", .obj [("topicData", .obj [("pageInfo", coffeePageInfo)])])]

/-- The page info of the end-to-end scenario with one more property, whose
key `NAME` differs from `name` by case only. -/
def caseVariantPageInfo : JSVal :=
  .obj [("name", .str "Coffee"), ("desc", .str "d"), ("viewNumText", .str "10万"),
    ("discussCommentNumText", .str "200"), ("NAME", .str "Tea")]

/-- The state tree of the end-to-end scenario with `caseVariantPageInfo`. -/
def fixtureCaseVariant : JSVal :=
  stateOf caseVariantPageInfo (.arr [feedT1])

/-- A state tree whose feed list is a string, which no slice of feeds can
be decoded from. -/
def fixtureBadFeeds : JSVal :=
  stateOf coffeePageInfo (.str "oops")

/-- A state tree whose page info is a string of 600 letters: a payload of
602 bytes that does not decode into a `TopicInfo`. -/
def fixtureLongPageInfo : JSVal :=
  stateOf (.str (String.mk (List.replicate 600 'a'))) (.arr [])

/-- A state tree without `topic`, with the two keys `user` and `feed`. -/
def fixtureNoTopic : JSVal :=
  .obj [("user", .obj []), ("feed", .obj [])]

/-- A state tree whose `topic` has no `topicData`, with the key `topicNotes`. -/
def fixtureNoTopicData : JSVal :=
  .obj [("topic", .obj [("topicNotes", .obj [("value", .arr [])])])]

/-- A page on which the wait for the state never succeeds within the bound. -/
def pageNeverReady : Page :=
  ⟨none, none, some .deadlineExceeded, .undefined⟩

/-- A state tree whose `topic` object holds the given container under
`topicData`, with arbitrary other properties before and after `topic` in
the state root and before and after `topicData` in `topic`. -/
def stateAround (rootBefore rootAfter topicBefore topicAfter : List (String × JSVal))
    (container : JSVal) : JSVal :=
  .obj (rootBefore ++
    ("topic", .obj (topicBefore ++ ("topicData", container) :: topicAfter)) :: rootAfter)

/-- The text `JSON.stringify` writes for the page info of
`fixtureLongPageInfo`: 600 letters between two quotes. -/
def longPayload : String :=
  String.mk ('"' :: (List.replicate 600 'a' ++ ['"']))

/-- The keys of an object are pairwise distinct, and a key that is not one
of the given tags is stored into no field by a decoder with these tags (no
key differs from a tag by case only). -/
def plainKeys (tags : List String) (props : List (String × JSVal)) : Prop :=
  (props.map Prod.fst).Nodup ∧
    ∀ k ∈ props.map Prod.fst, k ∉ tags → findField tags k = none

/-- The string property `tag` of an object, or the given default when there
is no such string property. -/
def stringProp (props : List (String × JSVal)) (tag dflt : String) : String :=
  match props.lookup tag with
  | some (.str s) => s
  | _ => dflt

/-! ## Feed objects -/

/-- A property value a `string` field takes: a string; `null` and
`undefined` leave the field as it is. -/
def fitsString : JSVal → Bool
  | .str _ => true
  | .null => true
  | .undefined => true
  | _ => false

/-- A property value a `bool` field takes. -/
def fitsBool : JSVal → Bool
  | .bool _ => true
  | .null => true
  | .undefined => true
  | _ => false

/-- A property value an `int64` field takes. -/
def fitsInt64 : JSVal → Bool
  | .num _ => true
  | .null => true
  | .undefined => true
  | _ => false

/-- Every property of the object that the decoder stores into a field (its
key is the field's tag, exactly or up to case) has a value that field
takes; properties stored into no field are free. -/
def propsFit (fits : String → JSVal → Bool) (tags : List String)
    (props : List (String × JSVal)) : Bool :=
  props.all (fun p =>
    match findField tags p.1 with
    | none => true
    | some tag => fits tag p.2)

/-- The values the fields of `TopicFeedUser` take, by tag. -/
def fitsFeedUserField (tag : String) (v : JSVal) : Bool :=
  if tag = "isForbidden" then fitsBool v else fitsString v

/-- A property value the field `user` takes: an object whose properties fit
`TopicFeedUser`. -/
def fitsFeedUser : JSVal → Bool
  | .obj props => propsFit fitsFeedUserField topicFeedUserTags props
  | .null => true
  | .undefined => true
  | _ => false

/-- A property value the field `interactionInfo` takes: an object whose
properties fit `TopicInteractionInfo`, all of whose fields are strings. -/
def fitsInteractionInfo : JSVal → Bool
  | .obj props => propsFit (fun _ v => fitsString v) topicInteractionInfoTags props
  | .null => true
  | .undefined => true
  | _ => false

/-- The values the fields of `TopicFeed` take, by tag. -/
def fitsFeedField (tag : String) (v : JSVal) : Bool :=
  if tag = "user" then fitsFeedUser v
  else if tag = "interactionInfo" then fitsInteractionInfo v
  else if tag = "createTime" then fitsInt64 v
  else fitsString v

/-- A feed object: an object whose properties fit the fields of
`TopicFeed`: strings for `type`, `title`, `desc` and `cursorScore`, a number
for `createTime`, a user object for `user` and an interaction-info object for
`interactionInfo`. Any other property is allowed. -/
def isFeedObject : JSVal → Bool
  | .obj props => propsFit fitsFeedField topicFeedTags props
  | _ => false

/-- A feed object with every field of `TopicFeed` and one property more. -/
def feedFull : JSVal :=
  .obj [("type", .str "video"), ("title", .str "t2"), ("desc", .str "x"),
    ("user", .obj [("nickname", .str "u"), ("avatarUrl", .str "a.png"),
      ("isForbidden", .bool true)]),
    ("interactionInfo", .obj [("likeText", .str "1"), ("collectText", .str "2"),
      ("commentText", .str "3")]),
    ("createTime", .num ⟨1700000000000, by decide⟩),
    ("cursorScore", .str "c"),
    ("cover", .arr [.null, .str "p"])]

/-- The state tree of the end-to-end scenario with a second feed. -/
def fixtureTwoFeeds : JSVal :=
  stateOf coffeePageInfo (.arr [feedT1, feedFull])

/-! ## The page scripts never throw -/

theorem getProp_ok_of_truthy (v : JSVal) (k : String) (h : truthy v = true) :
    ∃ w, getProp v k = .ok w := by
  cases v <;> simp [truthy, getProp] at h ⊢

theorem unwrapContainer_ok_of_truthy (c : JSVal) (h : truthy c = true) :
    ∃ w, unwrapContainer c = .ok w := by
  obtain ⟨value, hv⟩ := getProp_ok_of_truthy c "value" h
  obtain ⟨alt, ha⟩ := getProp_ok_of_truthy c "_value" h
  unfold unwrapContainer
  rw [hv, ha]
  by_cases hd : value.isDefined = true
  · exact ⟨value, by simp [bind, Except.bind, hd, pure, Except.pure]⟩
  · exact ⟨alt, by simp [bind, Except.bind, hd]⟩

theorem stringifyChars_isSome_of_truthy (v : JSVal) (h : truthy v = true) :
    ∃ cs, stringifyChars v = some cs := by
  cases v with
  | undefined => simp [truthy] at h
  | null => simp [truthy] at h
  | bool b => cases b <;> simp [stringifyChars]
  | num n => simp [stringifyChars]
  | str s => simp [stringifyChars]
  | arr xs => simp [stringifyChars]
  | obj props => simp [stringifyChars]

theorem stringify_isSome_of_truthy (v : JSVal) (h : truthy v = true) :
    ∃ t, JSON.stringify v = some t := by
  obtain ⟨cs, hcs⟩ := stringifyChars_isSome_of_truthy v h
  exact ⟨String.mk cs, by simp [JSON.stringify, hcs]⟩

theorem topicInfoScript_ok (state : JSVal) : ∃ t, topicInfoScript state = .ok (some t) := by
  unfold topicInfoScript
  by_cases h1 : truthy state = true
  · obtain ⟨topic, ht⟩ := getProp_ok_of_truthy state "topic" h1
    simp only [h1, ht, if_true, bind, Except.bind]
    by_cases h2 : truthy topic = true
    · obtain ⟨td, htd⟩ := getProp_ok_of_truthy topic "topicData" h2
      simp only [h2, htd, if_true]
      by_cases h3 : truthy td = true
      · obtain ⟨data, hdata⟩ := unwrapContainer_ok_of_truthy td h3
        simp only [h3, hdata, if_true]
        by_cases h4 : truthy data = true
        · obtain ⟨pi, hpi⟩ := getProp_ok_of_truthy data "pageInfo" h4
          simp only [h4, hpi, if_true]
          by_cases h5 : truthy pi = true
          · obtain ⟨t, ht⟩ := stringify_isSome_of_truthy pi h5
            exact ⟨t, by simp [h5, ht, pure, Except.pure]⟩
          · exact ⟨"", by simp [h5, pure, Except.pure]⟩
        · exact ⟨"", by simp [h4, pure, Except.pure]⟩
      · exact ⟨"", by simp [h3, pure, Except.pure]⟩
    · exact ⟨"", by simp [h2, pure, Except.pure]⟩
  · exact ⟨"", by simp [h1, pure, Except.pure]⟩

theorem feedsScript_ok (state : JSVal) : ∃ t, feedsScript state = .ok (some t) := by
  unfold feedsScript
  by_cases h1 : truthy state = true
  · obtain ⟨topic, ht⟩ := getProp_ok_of_truthy state "topic" h1
    simp only [h1, ht, if_true, bind, Except.bind]
    by_cases h2 : truthy topic = true
    · obtain ⟨tn, htn⟩ := getProp_ok_of_truthy topic "topicNotes" h2
      simp only [h2, htn, if_true]
      by_cases h3 : truthy tn = true
      · obtain ⟨data, hdata⟩ := unwrapContainer_ok_of_truthy tn h3
        simp only [h3, hdata, if_true]
        by_cases h4 : truthy data = true
        · obtain ⟨t, ht⟩ := stringify_isSome_of_truthy data h4
          exact ⟨t, by simp [h4, ht, pure, Except.pure]⟩
        · exact ⟨"", by simp [h4, pure, Except.pure]⟩
      · exact ⟨"", by simp [h3, pure, Except.pure]⟩
    · exact ⟨"", by simp [h2, pure, Except.pure]⟩
  · exact ⟨"", by simp [h1, pure, Except.pure]⟩

theorem objectKeys_ok_of_truthy (v : JSVal) (h : truthy v = true) :
    ∃ ks, objectKeys v = .ok ks := by
  cases v <;> simp [truthy, objectKeys] at h ⊢

theorem topicDebugScript_ok (state : JSVal) : ∃ t, topicDebugScript state = .ok (some t) := by
  unfold topicDebugScript
  by_cases h1 : truthy state = true
  · obtain ⟨topic, ht⟩ := getProp_ok_of_truthy state "topic" h1
    obtain ⟨ks, hks⟩ := objectKeys_ok_of_truthy state h1
    simp only [h1, ht, hks, bind, Except.bind]
    by_cases h2 : truthy topic = true
    · obtain ⟨td, htd⟩ := getProp_ok_of_truthy topic "topicData" h2
      obtain ⟨ks2, hks2⟩ := objectKeys_ok_of_truthy topic h2
      simp only [h2, htd, hks2]
      by_cases h3 : truthy td = true
      · simp [h3, pure, Except.pure]
      · simp [h3, pure, Except.pure]
    · simp [h2, pure, Except.pure]
  · simp [h1, pure, Except.pure]

theorem feedsDebugScript_ok (state : JSVal) : ∃ t, feedsDebugScript state = .ok (some t) := by
  unfold feedsDebugScript
  by_cases h1 : truthy state = true
  · obtain ⟨topic, ht⟩ := getProp_ok_of_truthy state "topic" h1
    simp only [h1, ht, bind, Except.bind]
    by_cases h2 : truthy topic = true
    · obtain ⟨tn, htn⟩ := getProp_ok_of_truthy topic "topicNotes" h2
      simp only [h2, htn]
      by_cases h3 : truthy tn = true
      · simp [h3, pure, Except.pure]
      · simp [h3, pure, Except.pure]
    · simp [h2, pure, Except.pure]
  · simp [h1, pure, Except.pure]

theorem hexVal_hexDigit (n : Nat) (h : n < 16) : hexVal (hexDigit n) = some n := by
  interval_cases n <;> rfl

theorem scanString_quoteChar (c : Char) (t : List Char) :
    scanString none .plain (quoteChar c ++ t) = consChar c (scanString none .plain t) := by
  unfold quoteChar
  split_ifs with h1 h2 h3 h4 h5 h6 h7 h8
  · subst h1; simp [scanString, unescape, flushPending]
  · subst h2; simp [scanString, unescape, flushPending]
  · subst h3; simp [scanString, unescape, flushPending]
  · subst h4; simp [scanString, unescape, flushPending]
  · subst h5; simp [scanString, unescape, flushPending]
  · subst h6; simp [scanString, unescape, flushPending]
  · subst h7; simp [scanString, unescape, flushPending]
  · have hlt : c.val.toNat / 16 < 16 := by omega
    have hlt2 : c.val.toNat % 16 < 16 := by omega
    have h0 : hexVal '0' = some 0 := by rfl
    have e : c.val.toNat / 16 * 16 + c.val.toNat % 16 = c.val.toNat := by omega
    have hc : Char.ofNat c.val.toNat = c := Char.ofNat_toNat c
    simp [scanString, h0, hexVal_hexDigit _ hlt, hexVal_hexDigit _ hlt2, pairWith, flushPending]
    rw [e, if_neg (by omega), hc]
  · simp [scanString, h1, h2, h8, flushPending]

theorem parseStringBody_quoteBody (cs rest : List Char) :
    parseStringBody (quoteBody cs ++ '"' :: rest) = some (cs, rest) := by
  unfold parseStringBody
  induction cs with
  | nil => simp [quoteBody, scanString, flushPending]
  | cons c cs ih =>
    simp only [quoteBody, List.append_assoc]
    rw [scanString_quoteChar, ih]
    rfl

theorem isDigit_digitChar (m : Nat) (h : m < 10) : isDigit (Nat.digitChar m) = true := by
  interval_cases m <;> rfl

theorem digitChar_eq_zero (m : Nat) (h : m < 10) (h0 : Nat.digitChar m = '0') : m = 0 := by
  interval_cases m <;> first | rfl | (exact absurd h0 (by decide))

/-- The decimal digits of a number: a digit, then digits, with a leading
zero only for zero itself. -/
theorem toDigitsCore_canonical (fuel : Nat) : ∀ (n : Nat) (ds : List Char), n < fuel →
    ∃ d body, Nat.toDigitsCore 10 fuel n ds = d :: (body ++ ds) ∧ isDigit d = true ∧
      (∀ c ∈ body, isDigit c = true) ∧ (d = '0' → body = [] ∧ n = 0) := by
  induction fuel with
  | zero => intro n ds h; omega
  | succ fuel ih =>
    intro n ds h
    unfold Nat.toDigitsCore
    by_cases hq : n / 10 = 0
    · refine ⟨Nat.digitChar (n % 10), [], by simp [hq], isDigit_digitChar _ (by omega), by simp, ?_⟩
      intro h0
      have := digitChar_eq_zero _ (by omega) h0
      exact ⟨rfl, by omega⟩
    · obtain ⟨d, body, he, hd, hb, hz⟩ := ih (n / 10) (Nat.digitChar (n % 10) :: ds) (by omega)
      refine ⟨d, body ++ [Nat.digitChar (n % 10)], by simp [hq, he], hd, ?_, ?_⟩
      · intro c hc
        rcases List.mem_append.mp hc with h1 | h1
        · exact hb c h1
        · simp at h1; subst h1; exact isDigit_digitChar _ (by omega)
      · intro h0
        exact absurd (hz h0).2 hq

theorem spanDigits_append (body rest : List Char) (hb : ∀ c ∈ body, isDigit c = true)
    (hr : numberEnds rest = true) : spanDigits (body ++ rest) = (body, rest) := by
  induction body with
  | nil =>
    cases rest with
    | nil => rfl
    | cons c r =>
      simp [numberEnds] at hr
      simp [spanDigits, hr.1.1.1]
  | cons c body ih =>
    have hc := hb c (by simp)
    have := ih (fun x hx => hb x (by simp [hx]))
    simp [spanDigits, hc, this]

theorem parseFrac_ends (acc rest : List Char) (hr : numberEnds rest = true) :
    parseFrac acc rest = some (acc, rest) := by
  cases rest with
  | nil => rfl
  | cons c r =>
    simp [numberEnds] at hr
    simp [parseFrac, parseExp, hr]

theorem parseDigits_canonical (sign : List Char) (d : Char) (body rest : List Char)
    (hd : isDigit d = true) (hb : ∀ c ∈ body, isDigit c = true) (hz : d = '0' → body = [])
    (hr : numberEnds rest = true) :
    parseDigits sign (d :: (body ++ rest)) = some (sign ++ d :: body, rest) := by
  unfold parseDigits
  by_cases h0 : d = '0'
  · have := hz h0
    subst this
    simp [h0, parseFrac_ends _ _ hr]
  · simp only [h0, if_false, hd, if_true]
    rw [spanDigits_append body rest hb hr]
    exact parseFrac_ends _ _ hr

theorem parseNumber_numberToString (n : SafeInt) (rest : List Char)
    (hr : numberEnds rest = true) :
    parseNumber (numberToString n ++ rest) = some (numberToString n, rest) := by
  obtain ⟨d, body, he, hd, hb, hz⟩ :=
    toDigitsCore_canonical (n.val.natAbs + 1) n.val.natAbs [] (by omega)
  have hdm : d ≠ '-' := by
    intro h; subst h; exact absurd hd (by decide)
  unfold numberToString Nat.toDigits
  rw [he]
  by_cases hn : n.val < 0
  · simp only [hn, if_true, List.append_nil, List.cons_append, parseNumber]
    simpa using parseDigits_canonical ['-'] d body rest hd hb (fun h => (hz h).1) hr
  · simp only [hn, if_false, List.append_nil, List.cons_append, parseNumber, hdm]
    simpa using parseDigits_canonical [] d body rest hd hb (fun h => (hz h).1) hr
theorem skipSpace_cons (c : Char) (t : List Char) (h : isSpace c = false) :
    skipSpace (c :: t) = c :: t := by
  simp [skipSpace, h]

theorem stringifyChars_eq_none_iff (v : JSVal) : stringifyChars v = none ↔ v.isDefined = false := by
  cases v with
  | bool b => cases b <;> simp [stringifyChars, JSVal.isDefined]
  | _ => simp [stringifyChars, JSVal.isDefined]

theorem stringifyElems_cons (x : JSVal) (xs : List JSVal) :
    stringifyElems (x :: xs) = elemText x :: stringifyElems xs := by
  simp [stringifyElems, elemText]

theorem stringifyProps_cons_undefined (k : String) (v : JSVal) (rest : List (String × JSVal))
    (h : v.isDefined = false) : stringifyProps ((k, v) :: rest) = stringifyProps rest := by
  have := (stringifyChars_eq_none_iff v).mpr h
  simp [stringifyProps, this]

theorem stringifyProps_cons_defined (k : String) (v : JSVal) (rest : List (String × JSVal))
    (h : v.isDefined = true) :
    stringifyProps ((k, v) :: rest) =
      (quoteJSONString k ++ ':' :: elemText v) :: stringifyProps rest := by
  cases hs : stringifyChars v with
  | none => rw [(stringifyChars_eq_none_iff v).mp hs] at h; cases h
  | some t => simp [stringifyProps, hs, elemText]

theorem numberToString_head (n : SafeInt) :
    ∃ c r, numberToString n = c :: r ∧ (c = '-' ∨ isDigit c = true) := by
  obtain ⟨d, body, he, hd, -, -⟩ :=
    toDigitsCore_canonical (n.val.natAbs + 1) n.val.natAbs [] (by omega)
  unfold numberToString Nat.toDigits
  rw [he]
  by_cases hn : n.val < 0
  · exact ⟨'-', d :: body, by simp [hn], Or.inl rfl⟩
  · exact ⟨d, body, by simp [hn], Or.inr hd⟩

theorem isDigit_val (c : Char) (h : isDigit c = true) : 48 ≤ c.val.toNat ∧ c.val.toNat ≤ 57 := by
  simpa [isDigit] using h

/-- A character that opens the text of a value: it is neither white space
nor a closing bracket or brace. -/
theorem elemText_head (v : JSVal) :
    ∃ c r, elemText v = c :: r ∧ isSpace c = false ∧ c ≠ ']' ∧ c ≠ '\x7d' := by
  cases v with
  | undefined => exact ⟨'n', _, rfl, by decide, by decide, by decide⟩
  | null => exact ⟨'n', _, rfl, by decide, by decide, by decide⟩
  | bool b =>
    cases b
    · exact ⟨'f', _, rfl, by decide, by decide, by decide⟩
    · exact ⟨'t', _, rfl, by decide, by decide, by decide⟩
  | num n =>
    obtain ⟨c, r, he, hc⟩ := numberToString_head n
    refine ⟨c, r, by simp [elemText, stringifyChars, he], ?_⟩
    rcases hc with hc | hc
    · subst hc; exact ⟨by decide, by decide, by decide⟩
    · have := isDigit_val c hc
      refine ⟨?_, ?_, ?_⟩
      · simp only [isSpace, Bool.or_eq_false_iff, decide_eq_false_iff_not]
        refine ⟨⟨⟨?_, ?_⟩, ?_⟩, ?_⟩ <;> (intro h; subst h; revert this; decide)
      · intro h; subst h; revert this; decide
      · intro h; subst h; revert this; decide
  | str s => exact ⟨'"', _, rfl, by decide, by decide, by decide⟩
  | arr xs => exact ⟨'[', _, rfl, by decide, by decide, by decide⟩
  | obj props => exact ⟨'\x7b', _, rfl, by decide, by decide, by decide⟩

theorem elemText_length_pos (v : JSVal) : 0 < (elemText v).length := by
  obtain ⟨c, r, he, -⟩ := elemText_head v
  simp [he]
theorem parseValue_leaf (n : Nat) (v : JSVal) (rest : List Char)
    (harr : ∀ xs, v ≠ .arr xs) (hobj : ∀ ps, v ≠ .obj ps) (hr : numberEnds rest = true) :
    parseValue (n + 1) (elemText v ++ rest) = some (toJson v, rest) := by
  cases v with
  | undefined => simp [elemText, stringifyChars, parseValue, expectWord, toJson]
  | null => simp [elemText, stringifyChars, parseValue, expectWord, toJson]
  | bool b => cases b <;> simp [elemText, stringifyChars, parseValue, expectWord, toJson]
  | num k =>
    obtain ⟨c, r, he, hc⟩ := numberToString_head k
    have hnum := parseNumber_numberToString k rest hr
    have hc1 : c ≠ '\x7b' ∧ c ≠ '[' ∧ c ≠ '"' ∧ c ≠ 't' ∧ c ≠ 'f' ∧ c ≠ 'n' := by
      rcases hc with hc | hc
      · subst hc; decide
      · have := isDigit_val c hc
        refine ⟨?_, ?_, ?_, ?_, ?_, ?_⟩ <;> (intro h; subst h; revert this; decide)
    simp only [elemText, stringifyChars, Option.getD_some, toJson]
    rw [he] at hnum ⊢
    simp only [List.cons_append] at hnum ⊢
    simp [parseValue, hc1, hnum]
  | str s =>
    have := parseStringBody_quoteBody s.data rest
    simp [elemText, stringifyChars, quoteJSONString, parseValue, toJson, this]
  | arr xs => exact absurd rfl (harr xs)
  | obj ps => exact absurd rfl (hobj ps)
theorem numberEnds_comma (t : List Char) : numberEnds (',' :: t) = true := by rfl
theorem numberEnds_bracket (t : List Char) : numberEnds (']' :: t) = true := by rfl
theorem numberEnds_brace (t : List Char) : numberEnds ('\x7d' :: t) = true := by rfl

theorem joinComma_cons_cons (x y : List Char) (rest : List (List Char)) :
    joinComma (x :: y :: rest) = x ++ ',' :: joinComma (y :: rest) := rfl

theorem stringifyElems_ne_nil (xs : List JSVal) (h : xs ≠ []) : stringifyElems xs ≠ [] := by
  cases xs with
  | nil => exact absurd rfl h
  | cons x xs => simp [stringifyElems_cons]

/-- The text of a non-empty list of items starts like its first item. -/
theorem joinComma_head (x : List Char) (rest : List (List Char)) (c : Char) (r : List Char)
    (h : x = c :: r) : ∃ r2, joinComma (x :: rest) = c :: r2 := by
  cases rest with
  | nil => exact ⟨r, by simp [joinComma, h]⟩
  | cons y ys => exact ⟨r ++ ',' :: joinComma (y :: ys), by simp [joinComma, h]⟩

theorem joinComma_length_ge (x : List Char) (rest : List (List Char)) :
    x.length ≤ (joinComma (x :: rest)).length := by
  cases rest with
  | nil => simp [joinComma]
  | cons y ys => simp [joinComma]

theorem toJsonProps_of_stringifyProps_nil (ps : List (String × JSVal))
    (h : stringifyProps ps = []) : toJsonProps ps = [] := by
  induction ps with
  | nil => rfl
  | cons p ps ih =>
    obtain ⟨k, v⟩ := p
    by_cases hd : v.isDefined = true
    · rw [stringifyProps_cons_defined k v ps hd] at h
      cases h
    · have hd2 : v.isDefined = false := by simpa using hd
      rw [stringifyProps_cons_undefined k v ps hd2] at h
      simp [toJsonProps, hd2, ih h]

theorem joinComma_stringifyProps_head (ps : List (String × JSVal)) (h : stringifyProps ps ≠ []) :
    ∃ r2, joinComma (stringifyProps ps) = '"' :: r2 := by
  induction ps with
  | nil => exact absurd rfl h
  | cons p ps ih =>
    obtain ⟨k, v⟩ := p
    by_cases hd : v.isDefined = true
    · rw [stringifyProps_cons_defined k v ps hd]
      exact joinComma_head _ _ '"' _ (by simp [quoteJSONString]; rfl)
    · have hd2 : v.isDefined = false := by simpa using hd
      rw [stringifyProps_cons_undefined k v ps hd2] at h ⊢
      exact ih h

/-- Reading back what `JSON.stringify` wrote, for values, for the elements of
an array up to the closing bracket and for the members of an object up to
the closing brace, whenever the bound on nested reads is at least the length
of the text. -/
theorem parse_stringify_aux (n : Nat) :
    (∀ v rest, (elemText v).length ≤ n → numberEnds rest = true →
      parseValue n (elemText v ++ rest) = some (toJson v, rest)) ∧
    (∀ xs rest, xs ≠ [] → (joinComma (stringifyElems xs)).length < n →
      parseElems n (joinComma (stringifyElems xs) ++ ']' :: rest) =
        some (toJsonElems xs, rest)) ∧
    (∀ ps rest, stringifyProps ps ≠ [] → (joinComma (stringifyProps ps)).length < n →
      parseMembers n (joinComma (stringifyProps ps) ++ '\x7d' :: rest) =
        some (toJsonProps ps, rest)) := by
  induction n with
  | zero =>
    refine ⟨?_, ?_, ?_⟩
    · intro v rest h _
      have := elemText_length_pos v
      omega
    · intro xs rest _ h; omega
    · intro ps rest _ h; omega
  | succ n ih =>
    obtain ⟨ihV, ihE, ihM⟩ := ih
    refine ⟨?_, ?_, ?_⟩
    · intro v rest hlen hr
      by_cases harr : ∃ xs, v = .arr xs
      · obtain ⟨xs, rfl⟩ := harr
        cases xs with
        | nil => simp [elemText, stringifyChars, stringifyElems, joinComma, parseValue, skipSpace,
            isSpace, toJson, toJsonElems]
        | cons x xs =>
          obtain ⟨c, r, he, hsp, hb1, hb2⟩ := elemText_head x
          obtain ⟨r2, hj⟩ := joinComma_head (elemText x) (stringifyElems xs) c r he
          have hlen2 : (joinComma (stringifyElems (x :: xs))).length < n := by
            simp [elemText, stringifyChars] at hlen
            omega
          have hE := ihE (x :: xs) rest (by simp) hlen2
          simp only [elemText, stringifyChars, Option.getD_some, toJson, List.cons_append,
            List.append_assoc, List.singleton_append]
          rw [stringifyElems_cons, hj] at hE ⊢
          simp only [List.cons_append] at hE ⊢
          simp [parseValue, skipSpace_cons _ _ hsp, hb1, hE]
      · by_cases hobj : ∃ ps, v = .obj ps
        · obtain ⟨ps, rfl⟩ := hobj
          by_cases hps : stringifyProps ps = []
          · simp [elemText, stringifyChars, hps, joinComma, parseValue, skipSpace, isSpace, toJson,
              toJsonProps_of_stringifyProps_nil ps hps]
          · obtain ⟨r2, hj⟩ := joinComma_stringifyProps_head ps hps
            have hlen2 : (joinComma (stringifyProps ps)).length < n := by
              simp [elemText, stringifyChars] at hlen
              omega
            have hM := ihM ps rest hps hlen2
            simp only [elemText, stringifyChars, Option.getD_some, toJson, List.cons_append,
              List.append_assoc, List.singleton_append]
            rw [hj] at hM ⊢
            simp only [List.cons_append] at hM ⊢
            have hs1 : ∀ t, skipSpace ('"' :: t) = '"' :: t := fun t => skipSpace_cons _ _ (by decide)
            simp [parseValue, hs1, hM]
        · exact parseValue_leaf n v rest (fun xs h => harr ⟨xs, h⟩) (fun ps h => hobj ⟨ps, h⟩) hr
    · intro xs rest hne hlen
      cases xs with
      | nil => exact absurd rfl hne
      | cons x xs =>
        rw [stringifyElems_cons] at hlen ⊢
        have hx : (elemText x).length ≤ n := by
          have := joinComma_length_ge (elemText x) (stringifyElems xs)
          omega
        cases xs with
        | nil =>
          have hV := ihV x (']' :: rest) hx (numberEnds_bracket rest)
          have hs1 : ∀ t, skipSpace (']' :: t) = ']' :: t := fun t => skipSpace_cons _ _ (by decide)
          simp [stringifyElems, joinComma, parseElems, hV, hs1, toJsonElems]
        | cons y ys =>
          obtain ⟨c, r, he, hsp, hb1, hb2⟩ := elemText_head y
          obtain ⟨r2, hj⟩ := joinComma_head (elemText y) (stringifyElems ys) c r he
          have hV := ihV x (',' :: (joinComma (stringifyElems (y :: ys)) ++ ']' :: rest)) hx
            (numberEnds_comma _)
          have hlen2 : (joinComma (stringifyElems (y :: ys))).length < n := by
            rw [stringifyElems_cons] at hlen ⊢
            rw [joinComma_cons_cons] at hlen
            simp at hlen
            omega
          have hE := ihE (y :: ys) rest (by simp) hlen2
          rw [stringifyElems_cons] at hV hE ⊢
          rw [joinComma_cons_cons]
          simp only [List.append_assoc, List.cons_append]
          rw [hj] at hV hE ⊢
          simp only [List.cons_append] at hV hE ⊢
          have hs1 : ∀ t, skipSpace (',' :: t) = ',' :: t := fun t => skipSpace_cons _ _ (by decide)
          simp [parseElems, hV, hs1, skipSpace_cons _ _ hsp, hE, consItem, toJsonElems]
    · intro ps
      induction ps with
      | nil => intro rest hne; exact absurd rfl hne
      | cons p ps ihp =>
        obtain ⟨k, v⟩ := p
        intro rest hne hlen
        by_cases hd : v.isDefined = true
        · rw [stringifyProps_cons_defined k v ps hd] at hlen ⊢
          have hv : (elemText v).length ≤ n := by
            have := joinComma_length_ge (quoteJSONString k ++ ':' :: elemText v) (stringifyProps ps)
            simp at this
            omega
          obtain ⟨c, r, he, hsp, hb1, hb2⟩ := elemText_head v
          have hs1 : ∀ t, skipSpace (':' :: t) = ':' :: t := fun t => skipSpace_cons _ _ (by decide)
          have hs2 : ∀ t, skipSpace (',' :: t) = ',' :: t := fun t => skipSpace_cons _ _ (by decide)
          have hs3 : ∀ t, skipSpace ('\x7d' :: t) = '\x7d' :: t :=
            fun t => skipSpace_cons _ _ (by decide)
          have hs4 : ∀ t, skipSpace ('"' :: t) = '"' :: t := fun t => skipSpace_cons _ _ (by decide)
          have hkey : ∀ t, parseStringBody (quoteBody k.data ++ '"' :: t) = some (k.data, t) :=
            fun t => parseStringBody_quoteBody k.data t
          by_cases hps : stringifyProps ps = []
          · have hV := ihV v ('\x7d' :: rest) hv (numberEnds_brace rest)
            rw [he] at hV
            simp only [List.cons_append] at hV
            simp [hps, joinComma, quoteJSONString, he, parseMembers, hkey, hs1, hs3,
              skipSpace_cons _ _ hsp, hV, toJsonProps, hd,
              toJsonProps_of_stringifyProps_nil ps hps]
          · obtain ⟨r2, hj⟩ := joinComma_stringifyProps_head ps hps
            obtain ⟨m2, ms, hms⟩ := List.exists_cons_of_ne_nil hps
            have hV := ihV v (',' :: (joinComma (stringifyProps ps) ++ '\x7d' :: rest)) hv
              (numberEnds_comma _)
            have hlen2 : (joinComma (stringifyProps ps)).length < n := by
              rw [hms, joinComma_cons_cons] at hlen
              rw [hms]
              simp at hlen
              omega
            have hM := ihM ps rest hps hlen2
            rw [hms, joinComma_cons_cons]
            rw [← hms]
            rw [hj, he] at hV
            rw [hj] at hM
            simp only [List.cons_append] at hV hM
            simp [quoteJSONString, he, hj, parseMembers, hkey, hs1, hs2, hs4,
              skipSpace_cons _ _ hsp, hV, hM, consItem, toJsonProps, hd]
        · have hd2 : v.isDefined = false := by simpa using hd
          rw [stringifyProps_cons_undefined k v ps hd2] at hne hlen ⊢
          have := ihp rest hne hlen
          simp [toJsonProps, hd2, this]
/-- The grammar check accepts every text `JSON.stringify` writes, and the
parse is the tree that was written. -/
theorem parseJson_stringify (v : JSVal) (t : String) (h : JSON.stringify v = some t) :
    parseJson t = some (toJson v) := by
  unfold JSON.stringify at h
  cases hs : stringifyChars v with
  | none => simp [hs] at h
  | some cs =>
    simp [hs] at h
    subst h
    have he : elemText v = cs := by simp [elemText, hs]
    obtain ⟨c, r, hc, hsp, -, -⟩ := elemText_head v
    have hV := (parse_stringify_aux (cs.length + 1)).1 v [] (by rw [he]; omega) rfl
    rw [he] at hV hc
    simp only [List.append_nil] at hV
    unfold parseJson
    simp only
    rw [hc, skipSpace_cons _ _ hsp, ← hc, hV]
    rfl

theorem unmarshalTopicInfo_stringify (v : JSVal) (t : String) (h : JSON.stringify v = some t) :
    unmarshalTopicInfo t = decodeTopicInfo (toJson v) := by
  simp [unmarshalTopicInfo, parseJson_stringify v t h]

theorem unmarshalFeeds_stringify (v : JSVal) (t : String) (h : JSON.stringify v = some t) :
    unmarshalFeeds t = decodeFeeds (toJson v) := by
  simp [unmarshalFeeds, parseJson_stringify v t h]
/-! ## The runs of `GetTopicFeeds` on a ready page -/

theorem run_topic_empty (state : JSVal) (topicID d : String)
    (h1 : topicInfoScript state = .ok (some ""))
    (h2 : topicDebugScript state = .ok (some d)) :
    GetTopicFeeds (readyPage state) topicID =
      ⟨[⟨.info, "打开话题页面: %s", [.text (makeTopicURL topicID)]⟩,
        ⟨.error, "话题信息获取失败: %s", [.text d]⟩],
        .returned none (some (.errorf "未找到话题信息: %s" d))⟩ := by
  simp [GetTopicFeeds, readyPage, topicStage, gsonString, h1, h2]

theorem run_topic_decode_fail (state : JSVal) (topicID t : String) (e : JsonErr)
    (h1 : topicInfoScript state = .ok (some t)) (h2 : t ≠ "")
    (h3 : unmarshalTopicInfo t = .error e) :
    GetTopicFeeds (readyPage state) topicID =
      ⟨[⟨.info, "打开话题页面: %s", [.text (makeTopicURL topicID)]⟩,
        ⟨.error, "解析话题信息失败，原始数据: %s", [.text t]⟩],
        .returned none (some (.wrap "解析话题信息失败: %w" e))⟩ := by
  simp [GetTopicFeeds, readyPage, topicStage, gsonString, h1, h2, h3]

theorem run_feed_empty (state : JSVal) (topicID t d : String) (ti : TopicInfo)
    (h1 : topicInfoScript state = .ok (some t)) (h2 : t ≠ "")
    (h3 : unmarshalTopicInfo t = .ok ti)
    (h4 : feedsScript state = .ok (some ""))
    (h5 : feedsDebugScript state = .ok (some d)) :
    GetTopicFeeds (readyPage state) topicID =
      ⟨[⟨.info, "打开话题页面: %s", [.text (makeTopicURL topicID)]⟩,
        ⟨.debug, "解析后的话题信息: %+v", [.topicInfo ti]⟩,
        ⟨.error, "话题Feed列表获取失败: %s", [.text d]⟩],
        .returned none (some .ErrNoFeeds)⟩ := by
  simp [GetTopicFeeds, readyPage, topicStage, feedStage, gsonString, h1, h2, h3, h4, h5]

theorem run_feed_decode_fail (state : JSVal) (topicID t ft : String) (ti : TopicInfo)
    (e : JsonErr)
    (h1 : topicInfoScript state = .ok (some t)) (h2 : t ≠ "")
    (h3 : unmarshalTopicInfo t = .ok ti)
    (h4 : feedsScript state = .ok (some ft)) (h5 : ft ≠ "")
    (h6 : unmarshalFeeds ft = .error e) :
    GetTopicFeeds (readyPage state) topicID =
      ⟨[⟨.info, "打开话题页面: %s", [.text (makeTopicURL topicID)]⟩,
        ⟨.debug, "解析后的话题信息: %+v", [.topicInfo ti]⟩,
        feedDecodeLog ft],
        .returned none (some (.wrap "解析Feed数据失败: %w" e))⟩ := by
  simp [GetTopicFeeds, readyPage, topicStage, feedStage, gsonString, h1, h2, h3, h4, h5, h6]

theorem run_success (state : JSVal) (topicID t ft : String) (ti : TopicInfo)
    (feeds : List TopicFeed)
    (h1 : topicInfoScript state = .ok (some t)) (h2 : t ≠ "")
    (h3 : unmarshalTopicInfo t = .ok ti)
    (h4 : feedsScript state = .ok (some ft)) (h5 : ft ≠ "")
    (h6 : unmarshalFeeds ft = .ok feeds) :
    GetTopicFeeds (readyPage state) topicID =
      ⟨[⟨.info, "打开话题页面: %s", [.text (makeTopicURL topicID)]⟩,
        ⟨.debug, "解析后的话题信息: %+v", [.topicInfo ti]⟩,
        ⟨.debug, "成功解析 %d 个话题Feed", [.int feeds.length]⟩],
        .returned (some ⟨ti, feeds, feeds.length⟩) none⟩ := by
  simp [GetTopicFeeds, readyPage, topicStage, feedStage, gsonString, h1, h2, h3, h4, h5, h6]

/-- The five ways a run on a ready page can go. -/
theorem run_cases (state : JSVal) (topicID : String) :
    (∃ d, topicInfoScript state = .ok (some "") ∧ topicDebugScript state = .ok (some d) ∧
      (GetTopicFeeds (readyPage state) topicID).outcome =
        .returned none (some (.errorf "未找到话题信息: %s" d))) ∨
    (∃ t e, topicInfoScript state = .ok (some t) ∧ t ≠ "" ∧ unmarshalTopicInfo t = .error e ∧
      (GetTopicFeeds (readyPage state) topicID).outcome =
        .returned none (some (.wrap "解析话题信息失败: %w" e))) ∨
    (∃ t ti, topicInfoScript state = .ok (some t) ∧ t ≠ "" ∧ unmarshalTopicInfo t = .ok ti ∧
      feedsScript state = .ok (some "") ∧
      (GetTopicFeeds (readyPage state) topicID).outcome = .returned none (some .ErrNoFeeds)) ∨
    (∃ t ti ft e, topicInfoScript state = .ok (some t) ∧ t ≠ "" ∧
      unmarshalTopicInfo t = .ok ti ∧ feedsScript state = .ok (some ft) ∧ ft ≠ "" ∧
      unmarshalFeeds ft = .error e ∧
      (GetTopicFeeds (readyPage state) topicID).outcome =
        .returned none (some (.wrap "解析Feed数据失败: %w" e))) ∨
    (∃ t ti ft feeds, topicInfoScript state = .ok (some t) ∧ t ≠ "" ∧
      unmarshalTopicInfo t = .ok ti ∧ feedsScript state = .ok (some ft) ∧ ft ≠ "" ∧
      unmarshalFeeds ft = .ok feeds ∧
      (GetTopicFeeds (readyPage state) topicID).outcome =
        .returned (some ⟨ti, feeds, feeds.length⟩) none) := by
  obtain ⟨t, ht⟩ := topicInfoScript_ok state
  by_cases h2 : t = ""
  · subst h2
    obtain ⟨d, hd⟩ := topicDebugScript_ok state
    exact Or.inl ⟨d, ht, hd, by rw [run_topic_empty state topicID d ht hd]⟩
  · cases h3 : unmarshalTopicInfo t with
    | error e =>
      exact Or.inr (Or.inl ⟨t, e, ht, h2, h3, by rw [run_topic_decode_fail state topicID t e ht h2 h3]⟩)
    | ok ti =>
      obtain ⟨ft, hft⟩ := feedsScript_ok state
      by_cases h5 : ft = ""
      · subst h5
        obtain ⟨d, hd⟩ := feedsDebugScript_ok state
        exact Or.inr (Or.inr (Or.inl ⟨t, ti, ht, h2, h3, hft,
          by rw [run_feed_empty state topicID t d ti ht h2 h3 hft hd]⟩))
      · cases h6 : unmarshalFeeds ft with
        | error e =>
          exact Or.inr (Or.inr (Or.inr (Or.inl ⟨t, ti, ft, e, ht, h2, h3, hft, h5, h6,
            by rw [run_feed_decode_fail state topicID t ft ti e ht h2 h3 hft h5 h6]⟩)))
        | ok feeds =>
          exact Or.inr (Or.inr (Or.inr (Or.inr ⟨t, ti, ft, feeds, ht, h2, h3, hft, h5, h6,
            by rw [run_success state topicID t ft ti feeds ht h2 h3 hft h5 h6]⟩)))
theorem run_returned_ready (page : Page) (topicID : String) (resp : Option TopicResponse)
    (err : Option GoError) (h : (GetTopicFeeds page topicID).outcome = .returned resp err) :
    GetTopicFeeds page topicID = GetTopicFeeds (readyPage page.state) topicID := by
  unfold GetTopicFeeds at h ⊢
  cases h1 : page.navigate with
  | some e => simp [h1] at h
  | none =>
    cases h2 : page.waitStable with
    | some e => simp [h1, h2] at h
    | none =>
      cases h3 : page.waitReady with
      | some e => simp [h1, h2, h3] at h
      | none => simp [readyPage]

/-! ## Claims -/

/-- C2: on every state tree shown by a ready page, `GetTopicFeeds` returns,
and it returns exactly one of a response and an error: the response is
non-nil exactly when the error is nil, and a response is only returned when
both the topic-info text and the feed-list text were located (non-empty) and
decoded, in which case it is assembled from the two decoded values. On any
page at all, whatever the call returns is exactly one of the two. -/
theorem getTopicFeeds_response_xor_error (state : JSVal) (topicID : String) :
    (∃ resp err, (GetTopicFeeds (readyPage state) topicID).outcome = .returned resp err ∧
      (resp.isSome = true ↔ err = none) ∧
      (∀ r, resp = some r →
        ∃ topicText feedText topicInfo feeds,
          topicInfoScript state = .ok (some topicText) ∧ topicText ≠ "" ∧
          unmarshalTopicInfo topicText = .ok topicInfo ∧
          feedsScript state = .ok (some feedText) ∧ feedText ≠ "" ∧
          unmarshalFeeds feedText = .ok feeds ∧
          r = ⟨topicInfo, feeds, feeds.length⟩)) ∧
    (∀ (page : Page) resp err, page.state = state →
      (GetTopicFeeds page topicID).outcome = .returned resp err →
      (resp.isSome = true ↔ err = none)) := by
  have key : ∃ resp err, (GetTopicFeeds (readyPage state) topicID).outcome = .returned resp err ∧
      (resp.isSome = true ↔ err = none) ∧
      (∀ r, resp = some r →
        ∃ topicText feedText topicInfo feeds,
          topicInfoScript state = .ok (some topicText) ∧ topicText ≠ "" ∧
          unmarshalTopicInfo topicText = .ok topicInfo ∧
          feedsScript state = .ok (some feedText) ∧ feedText ≠ "" ∧
          unmarshalFeeds feedText = .ok feeds ∧
          r = ⟨topicInfo, feeds, feeds.length⟩) := by
    rcases run_cases state topicID with ⟨d, -, -, h⟩ | ⟨t, e, -, -, -, h⟩ |
      ⟨t, ti, -, -, -, -, h⟩ | ⟨t, ti, ft, e, -, -, -, -, -, -, h⟩ |
      ⟨t, ti, ft, feeds, h1, h2, h3, h4, h5, h6, h⟩
    · exact ⟨_, _, h, by simp, by simp⟩
    · exact ⟨_, _, h, by simp, by simp⟩
    · exact ⟨_, _, h, by simp, by simp⟩
    · exact ⟨_, _, h, by simp, by simp⟩
    · refine ⟨_, _, h, by simp, ?_⟩
      intro r hr
      exact ⟨t, ft, ti, feeds, h1, h2, h3, h4, h5, h6, (Option.some.inj hr).symm⟩
  refine ⟨key, ?_⟩
  intro page resp err hst h
  obtain ⟨resp2, err2, h2, hx, -⟩ := key
  rw [run_returned_ready page topicID resp err h, hst, h2] at h
  cases h
  exact hx

/-- C2, on the end-to-end scenario: the call returns a response together
with a nil error. -/
theorem getTopicFeeds_response_xor_error_witness :
    (GetTopicFeeds (readyPage specFixture) "t").outcome =
        .returned (some ⟨⟨"Coffee", "d", "10万", "200"⟩,
          [⟨"normal", "t1", "", TopicFeedUser.zero, TopicInteractionInfo.zero, 0, ""⟩], 1⟩)
          none ∧
      ((some (⟨⟨"Coffee", "d", "10万", "200"⟩,
        [⟨"normal", "t1", "", TopicFeedUser.zero, TopicInteractionInfo.zero, 0, ""⟩], 1⟩ :
        TopicResponse)).isSome = true ↔ (none : Option GoError) = none) :=
  ⟨by rfl,
    (getTopicFeeds_response_xor_error specFixture "t").2 (readyPage specFixture) _ _ rfl (by rfl)⟩

/-- C4: when the topic-info stage succeeds and `topic.topicNotes` is missing,
`GetTopicFeeds` returns a nil response and the sentinel `ErrNoFeeds`. -/
theorem no_topicNotes_gives_ErrNoFeeds (state topic : JSVal) (topicID topicText : String)
    (topicInfo : TopicInfo)
    (h1 : topicInfoScript state = .ok (some topicText)) (h2 : topicText ≠ "")
    (h3 : unmarshalTopicInfo topicText = .ok topicInfo)
    (h4 : getProp state "topic" = .ok topic)
    (h5 : getProp topic "topicNotes" = .ok .undefined) :
    (GetTopicFeeds (readyPage state) topicID).outcome = .returned none (some .ErrNoFeeds) := by
  have hf : feedsScript state = .ok (some "") := by
    unfold feedsScript
    by_cases hs : truthy state = true
    · by_cases ht : truthy topic = true
      · simp [hs, h4, ht, h5, bind, Except.bind, truthy, pure, Except.pure]
      · simp [hs, h4, ht, bind, Except.bind, pure, Except.pure]
    · simp [hs, pure, Except.pure]
  obtain ⟨d, hd⟩ := feedsDebugScript_ok state
  rw [run_feed_empty state topicID topicText d topicInfo h1 h2 h3 hf hd]

/-- C4, at the scenario's state tree without `topicNotes`. -/
theorem no_topicNotes_gives_ErrNoFeeds_witness :
    (GetTopicFeeds (readyPage fixtureNoNotes) "t").outcome = .returned none (some .ErrNoFeeds) :=
  no_topicNotes_gives_ErrNoFeeds fixtureNoNotes
    (.obj [("topicData", .obj [("value", .obj [("pageInfo", coffeePageInfo)])])]) "t"
    "\x7b\"name\":\"Coffee\",\"desc\":\"d\",\"viewNumText\":\"10万\",\"discussCommentNumText\":\"200\"\x7d"
    ⟨"Coffee", "d", "10万", "200"⟩ (by rfl) (by decide) (by rfl) (by rfl) (by rfl)
/-- C10, as stated, fails: when the wait for the state ends with the deadline
error, `GetTopicFeeds` returns no error value at all. -/
theorem timeout_is_not_returned :
    ¬ ∃ resp err, (GetTopicFeeds pageNeverReady "t").outcome = .returned resp err := by
  rintro ⟨resp, err, h⟩
  have hp : (GetTopicFeeds pageNeverReady "t").outcome = .panicked (.driver .deadlineExceeded) :=
    rfl
  rw [hp] at h
  cases h

/-- C10, amended: when navigation and the wait for a stable page succeed and
the wait for the state ends with an error, `GetTopicFeeds` does not return:
it panics with that error after the first log line, whatever the state tree
is, so no lookup and no decoding take place. -/
theorem timeout_panics (page : Page) (topicID : String) (e : DriverError)
    (h1 : page.navigate = none) (h2 : page.waitStable = none) (h3 : page.waitReady = some e) :
    GetTopicFeeds page topicID =
        ⟨[⟨.info, "打开话题页面: %s", [.text (makeTopicURL topicID)]⟩], .panicked (.driver e)⟩ ∧
      ∀ state, GetTopicFeeds { page with state := state } topicID = GetTopicFeeds page topicID := by
  constructor
  · simp [GetTopicFeeds, h1, h2, h3]
  · intro state
    simp [GetTopicFeeds, h1, h2, h3]

/-- C10, amended, on the page that never becomes ready. -/
theorem timeout_panics_witness :
    (GetTopicFeeds pageNeverReady "t").outcome = .panicked (.driver .deadlineExceeded) :=
  congrArg Run.outcome (timeout_panics pageNeverReady "t" .deadlineExceeded rfl rfl rfl).1

/-- C6, as stated, fails: with `pageInfo` directly under `topicData` the
locator returns the empty text and the call ends with the data-empty
error. -/
theorem bare_leaf_not_used :
    topicInfoScript fixtureBareLeaf = .ok (some "") ∧
      (GetTopicFeeds (readyPage fixtureBareLeaf) "t").outcome =
        .returned none (some (.errorf "未找到话题信息: %s" "topicData 数据为空")) := by
  constructor <;> rfl

/-- C6, amended: when `topic.topicData` resolves to a value that has neither
a `value` nor a `_value` member, the locator returns the empty text and
`GetTopicFeeds` returns the data-empty error; the leaf itself is not used. -/
theorem unwrapped_leaf_is_empty (state topic topicData : JSVal) (topicID : String)
    (h1 : getProp state "topic" = .ok topic) (h2 : truthy topic = true)
    (h3 : getProp topic "topicData" = .ok topicData) (h4 : truthy topicData = true)
    (h5 : getProp topicData "value" = .ok .undefined)
    (h6 : getProp topicData "_value" = .ok .undefined) :
    topicInfoScript state = .ok (some "") ∧
      (GetTopicFeeds (readyPage state) topicID).outcome =
        .returned none (some (.errorf "未找到话题信息: %s" "topicData 数据为空")) := by
  have hs : truthy state = true := by
    cases state <;> simp [getProp] at h1 <;> first | rfl | (subst h1; simp [truthy] at h2)
  have hu : unwrapContainer topicData = .ok .undefined := by
    simp [unwrapContainer, h5, h6, bind, Except.bind, JSVal.isDefined]
  have hl : topicInfoScript state = .ok (some "") := by
    simp [topicInfoScript, hs, h1, h2, h3, h4, hu, bind, Except.bind, truthy, pure, Except.pure]
  have hd : topicDebugScript state = .ok (some "topicData 数据为空") := by
    simp [topicDebugScript, hs, h1, h2, h3, h4, bind, Except.bind, pure, Except.pure]
  exact ⟨hl, by rw [run_topic_empty state topicID "topicData 数据为空" hl hd]⟩

/-- C6, amended, at the state tree with `pageInfo` directly under
`topicData`. -/
theorem unwrapped_leaf_is_empty_witness :
    topicInfoScript fixtureBareLeaf = .ok (some "") ∧
      (GetTopicFeeds (readyPage fixtureBareLeaf) "t").outcome =
        .returned none (some (.errorf "未找到话题信息: %s" "topicData 数据为空")) :=
  unwrapped_leaf_is_empty fixtureBareLeaf
    (.obj [("topicData", .obj [("pageInfo", coffeePageInfo)])])
    (.obj [("pageInfo", coffeePageInfo)]) "t" (by rfl) (by rfl) (by rfl) (by rfl) (by rfl) (by rfl)
theorem lookup_append_cons (l1 l2 : List (String × JSVal)) (k k2 : String) (v : JSVal) :
    (l1 ++ (k, v) :: l2).lookup k2 =
      match l1.lookup k2 with
      | some x => some x
      | none => if k2 = k then some v else l2.lookup k2 := by
  induction l1 with
  | nil =>
    by_cases h : k2 = k
    · subst h; simp [List.lookup]
    · have : (k2 == k) = false := by simpa using h
      simp [List.lookup, this, h]
  | cons p l1 ih =>
    obtain ⟨a, b⟩ := p
    by_cases h : k2 = a
    · subst h; simp [List.lookup]
    · have : (k2 == a) = false := by simpa using h
      simp [List.lookup, this, ih]

theorem run_congr (s1 s2 : JSVal) (topicID : String)
    (h1 : topicInfoScript s1 = topicInfoScript s2)
    (h2 : topicDebugScript s1 = topicDebugScript s2)
    (h3 : feedsScript s1 = feedsScript s2)
    (h4 : feedsDebugScript s1 = feedsDebugScript s2) :
    GetTopicFeeds (readyPage s1) topicID = GetTopicFeeds (readyPage s2) topicID := by
  simp [GetTopicFeeds, readyPage, topicStage, feedStage, h1, h2, h3, h4]

/-- The four scripts read the state only through its truthiness, its keys
and its `topic` member. -/
theorem scripts_congr_root (s1 s2 : JSVal) (hs : truthy s1 = truthy s2)
    (hk : objectKeys s1 = objectKeys s2) (ht : getProp s1 "topic" = getProp s2 "topic") :
    topicInfoScript s1 = topicInfoScript s2 ∧ topicDebugScript s1 = topicDebugScript s2 ∧
      feedsScript s1 = feedsScript s2 ∧ feedsDebugScript s1 = feedsDebugScript s2 := by
  simp [topicInfoScript, topicDebugScript, feedsScript, feedsDebugScript, hs, hk, ht]

/-- The four scripts read `topic` only through its truthiness, its keys, its
`topicNotes` member and the truthiness and unwrapped content of its
`topicData` member. -/
theorem scripts_congr_topic (s1 s2 topic1 topic2 td1 td2 : JSVal)
    (hs1 : truthy s1 = true) (hs2 : truthy s2 = true)
    (ht1 : getProp s1 "topic" = .ok topic1) (ht2 : getProp s2 "topic" = .ok topic2)
    (htt1 : truthy topic1 = true) (htt2 : truthy topic2 = true)
    (hkt : objectKeys topic1 = objectKeys topic2)
    (hn : getProp topic1 "topicNotes" = getProp topic2 "topicNotes")
    (hd1 : getProp topic1 "topicData" = .ok td1) (hd2 : getProp topic2 "topicData" = .ok td2)
    (htd : truthy td1 = truthy td2) (hu : unwrapContainer td1 = unwrapContainer td2) :
    topicInfoScript s1 = topicInfoScript s2 ∧ topicDebugScript s1 = topicDebugScript s2 ∧
      feedsScript s1 = feedsScript s2 ∧ feedsDebugScript s1 = feedsDebugScript s2 := by
  simp [topicInfoScript, topicDebugScript, feedsScript, feedsDebugScript, hs1, hs2, ht1, ht2,
    htt1, htt2, hkt, hn, hd1, hd2, htd, hu, bind, Except.bind]

theorem unwrapContainer_value (D : JSVal) :
    unwrapContainer (.obj [("value", D)]) = .ok D := by
  cases D <;> rfl

theorem unwrapContainer_underscore_value (D : JSVal) :
    unwrapContainer (.obj [("_value", D)]) = .ok D := by
  cases D <;> rfl

theorem scripts_stateAround (r1 r2 t1 t2 : List (String × JSVal)) (c1 c2 : JSVal)
    (hc : truthy c1 = truthy c2) (hu : unwrapContainer c1 = unwrapContainer c2) :
    topicInfoScript (stateAround r1 r2 t1 t2 c1) = topicInfoScript (stateAround r1 r2 t1 t2 c2) ∧
      topicDebugScript (stateAround r1 r2 t1 t2 c1) =
        topicDebugScript (stateAround r1 r2 t1 t2 c2) ∧
      feedsScript (stateAround r1 r2 t1 t2 c1) = feedsScript (stateAround r1 r2 t1 t2 c2) ∧
      feedsDebugScript (stateAround r1 r2 t1 t2 c1) =
        feedsDebugScript (stateAround r1 r2 t1 t2 c2) := by
  have hk : objectKeys (stateAround r1 r2 t1 t2 c1) = objectKeys (stateAround r1 r2 t1 t2 c2) := by
    simp [stateAround, objectKeys]
  cases hr : r1.lookup "topic" with
  | some y =>
    refine scripts_congr_root (stateAround r1 r2 t1 t2 c1) (stateAround r1 r2 t1 t2 c2) rfl hk ?_
    simp [stateAround, getProp, lookup_append_cons, hr]
  | none =>
    have ht : ∀ c, getProp (stateAround r1 r2 t1 t2 c) "topic" =
        .ok (.obj (t1 ++ ("topicData", c) :: t2)) := by
      intro c
      simp [stateAround, getProp, lookup_append_cons, hr]
    have hn : ∀ c, getProp (JSVal.obj (t1 ++ ("topicData", c) :: t2)) "topicNotes" =
        .ok (match t1.lookup "topicNotes" with
          | some x => x
          | none => (t2.lookup "topicNotes").getD .undefined) := by
      intro c
      simp only [getProp, lookup_append_cons]
      cases t1.lookup "topicNotes" <;> simp
    have hd : ∀ c, getProp (JSVal.obj (t1 ++ ("topicData", c) :: t2)) "topicData" =
        .ok (match t1.lookup "topicData" with
          | some x => x
          | none => c) := by
      intro c
      simp only [getProp, lookup_append_cons]
      cases t1.lookup "topicData" <;> simp
    refine scripts_congr_topic (stateAround r1 r2 t1 t2 c1) (stateAround r1 r2 t1 t2 c2) _ _ _ _
      rfl rfl (ht c1) (ht c2) rfl rfl
      (by simp [objectKeys]) (by rw [hn c1, hn c2]) (hd c1) (hd c2) ?_ ?_
    · cases t1.lookup "topicData" <;> simp [hc]
    · cases t1.lookup "topicData" <;> simp [hu]

/-- C3: the container `{value: D}` and the container `{_value: D}` under
`topic.topicData`, in otherwise identical state trees, give the same located
topic-info text, hence the same decoding of it, and the same whole run of
`GetTopicFeeds`; when nothing shadows the path and `D.pageInfo` is truthy,
the located text is in both cases the JSON text of `D.pageInfo`. -/
theorem value_wrapper_forms_agree (r1 r2 t1 t2 : List (String × JSVal)) (D : JSVal)
    (topicID : String) :
    topicInfoScript (stateAround r1 r2 t1 t2 (.obj [("value", D)])) =
        topicInfoScript (stateAround r1 r2 t1 t2 (.obj [("_value", D)])) ∧
      GetTopicFeeds (readyPage (stateAround r1 r2 t1 t2 (.obj [("value", D)]))) topicID =
        GetTopicFeeds (readyPage (stateAround r1 r2 t1 t2 (.obj [("_value", D)]))) topicID ∧
      (∀ P, r1.lookup "topic" = none → t1.lookup "topicData" = none →
        getProp D "pageInfo" = .ok P → truthy P = true →
        topicInfoScript (stateAround r1 r2 t1 t2 (.obj [("value", D)])) =
          .ok (JSON.stringify P) ∧
        topicInfoScript (stateAround r1 r2 t1 t2 (.obj [("_value", D)])) =
          .ok (JSON.stringify P)) := by
  have hu : unwrapContainer (.obj [("value", D)]) = unwrapContainer (.obj [("_value", D)]) := by
    rw [unwrapContainer_value, unwrapContainer_underscore_value]
  obtain ⟨h1, h2, h3, h4⟩ := scripts_stateAround r1 r2 t1 t2 (.obj [("value", D)])
    (.obj [("_value", D)]) rfl hu
  refine ⟨h1, run_congr _ _ topicID h1 h2 h3 h4, ?_⟩
  intro P hr ht hP hPt
  have hD : truthy D = true := by
    cases D <;> simp [getProp] at hP <;> first | rfl | (subst hP; simp [truthy] at hPt)
  have key : topicInfoScript (stateAround r1 r2 t1 t2 (.obj [("value", D)])) =
      .ok (JSON.stringify P) := by
    have e0 : truthy (stateAround r1 r2 t1 t2 (.obj [("value", D)])) = true := rfl
    have e1 : getProp (stateAround r1 r2 t1 t2 (.obj [("value", D)])) "topic" =
        .ok (.obj (t1 ++ ("topicData", .obj [("value", D)]) :: t2)) := by
      simp [stateAround, getProp, lookup_append_cons, hr]
    have e2 : truthy (JSVal.obj (t1 ++ ("topicData", .obj [("value", D)]) :: t2)) = true := rfl
    have e3 : getProp (JSVal.obj (t1 ++ ("topicData", .obj [("value", D)]) :: t2)) "topicData" =
        .ok (.obj [("value", D)]) := by
      simp [getProp, lookup_append_cons, ht]
    have e4 : truthy (JSVal.obj [("value", D)]) = true := rfl
    unfold topicInfoScript
    simp [e0, e1, e2, e3, e4, unwrapContainer_value, hD, hP, hPt, bind, Except.bind, pure,
      Except.pure]
  exact ⟨key, h1 ▸ key⟩
/-- C3, at the scenario's page info with no other properties around: both
wrapper forms locate the same text, the JSON text of the page info. -/
theorem value_wrapper_forms_agree_witness :
    topicInfoScript (stateAround [] [] [] [] (.obj [("value", .obj [("pageInfo", coffeePageInfo)])]))
        = .ok (JSON.stringify coffeePageInfo) ∧
      topicInfoScript
          (stateAround [] [] [] [] (.obj [("_value", .obj [("pageInfo", coffeePageInfo)])]))
        = .ok (JSON.stringify coffeePageInfo) :=
  (value_wrapper_forms_agree [] [] [] [] (.obj [("pageInfo", coffeePageInfo)]) "t").2.2
    coffeePageInfo rfl rfl rfl rfl

/-- C9: when the topic-info locator yields the empty text, `GetTopicFeeds`
returns a nil response and the error `未找到话题信息: <diagnostic>`, and logs the
same diagnostic. The diagnostic names the first missing segment: the state
itself when it is falsy; `topic`, followed by the keys of the state root,
when `topic` is missing under it; `topicData`, followed by the keys of
`topic`, when `topicData` is missing under `topic`; and the distinct
data-empty report when `topic.topicData` resolves. -/
theorem topic_missing_diagnostic (state : JSVal) (topicID : String)
    (hempty : topicInfoScript state = .ok (some "")) :
    ∃ msg,
      (GetTopicFeeds (readyPage state) topicID).outcome =
        .returned none (some (.errorf "未找到话题信息: %s" msg)) ∧
      (GetTopicFeeds (readyPage state) topicID).logs.getLast? =
        some ⟨.error, "话题信息获取失败: %s", [.text msg]⟩ ∧
      (truthy state = false → msg = "window.__INITIAL_STATE__ 不存在") ∧
      (∀ topic keys, truthy state = true → getProp state "topic" = .ok topic →
        truthy topic = false → objectKeys state = .ok keys →
        msg = "window.__INITIAL_STATE__.topic 不存在, 顶层keys: " ++ joinKeys ", " keys) ∧
      (∀ topic topicData keys, truthy state = true → getProp state "topic" = .ok topic →
        truthy topic = true → getProp topic "topicData" = .ok topicData →
        truthy topicData = false → objectKeys topic = .ok keys →
        msg = "window.__INITIAL_STATE__.topic.topicData 不存在, topic keys: "
          ++ joinKeys ", " keys) ∧
      (∀ topic topicData, truthy state = true → getProp state "topic" = .ok topic →
        truthy topic = true → getProp topic "topicData" = .ok topicData →
        truthy topicData = true → msg = "topicData 数据为空") := by
  obtain ⟨d, hd⟩ := topicDebugScript_ok state
  refine ⟨d, ?_, ?_, ?_, ?_, ?_, ?_⟩
  · rw [run_topic_empty state topicID d hempty hd]
  · rw [run_topic_empty state topicID d hempty hd]; rfl
  · intro hs
    simpa [topicDebugScript, hs, pure, Except.pure] using hd.symm
  · intro topic keys hs ht htt hk
    simpa [topicDebugScript, hs, ht, htt, hk, bind, Except.bind, pure, Except.pure] using hd.symm
  · intro topic td keys hs ht htt htd htdt hk
    simpa [topicDebugScript, hs, ht, htt, htd, htdt, hk, bind, Except.bind, pure, Except.pure]
      using hd.symm
  · intro topic td hs ht htt htd htdt
    simpa [topicDebugScript, hs, ht, htt, htd, htdt, bind, Except.bind, pure, Except.pure]
      using hd.symm

/-- C9, at a state tree without `topic` and with the keys `user` and `feed`
(the error names `topic` and lists both keys), and at a state tree whose
`topic` has the one key `topicNotes` (the error names `topicData` and lists
that key). -/
theorem topic_missing_diagnostic_witness :
    (GetTopicFeeds (readyPage fixtureNoTopic) "t").outcome =
        .returned none (some (.errorf "未找到话题信息: %s"
          "window.__INITIAL_STATE__.topic 不存在, 顶层keys: user, feed")) ∧
      (GetTopicFeeds (readyPage fixtureNoTopicData) "t").outcome =
        .returned none (some (.errorf "未找到话题信息: %s"
          "window.__INITIAL_STATE__.topic.topicData 不存在, topic keys: topicNotes")) := by
  constructor
  · obtain ⟨msg, h1, -, -, h4, -, -⟩ := topic_missing_diagnostic fixtureNoTopic "t" (by rfl)
    have hm := h4 .undefined ["user", "feed"] rfl rfl rfl rfl
    rw [h1, hm]
    rfl
  · obtain ⟨msg, h1, -, -, -, h5, -⟩ := topic_missing_diagnostic fixtureNoTopicData "t" (by rfl)
    have hm := h5 (.obj [("topicNotes", .obj [("value", .arr [])])]) .undefined ["topicNotes"]
      rfl rfl rfl rfl rfl rfl
    rw [h1, hm]
    rfl

/-- A text has at most as many characters as bytes. -/
theorem length_le_goLen (s : String) : s.length ≤ goLen s := by
  unfold goLen goBytes
  show s.data.length ≤ _
  induction s.data with
  | nil => simp
  | cons c cs ih =>
    have h1 : (String.utf8EncodeChar c).length = c.utf8Size := String.length_utf8EncodeChar c
    have h2 := Char.utf8Size_pos c
    simp only [List.flatMap_cons, List.length_append, List.length_cons, h1]
    omega

/-- C7: when the located feed-list text fails to decode, the last log line
of `GetTopicFeeds` carries one excerpt of that text; the excerpt is an
initial segment of the payload's bytes, is at most 500 bytes long, holds at
most 500 characters (every text whose bytes lie at the start of the excerpt
has at most 500 characters), is the whole payload when the payload has at
most 500 bytes and is exactly its first 500 bytes otherwise. -/
theorem feed_decode_excerpt (state : JSVal) (topicID topicText feedText : String)
    (topicInfo : TopicInfo) (e : JsonErr)
    (h1 : topicInfoScript state = .ok (some topicText)) (h2 : topicText ≠ "")
    (h3 : unmarshalTopicInfo topicText = .ok topicInfo)
    (h4 : feedsScript state = .ok (some feedText)) (h5 : feedText ≠ "")
    (h6 : unmarshalFeeds feedText = .error e) :
    ∃ entry excerpt,
      (GetTopicFeeds (readyPage state) topicID).logs.getLast? = some entry ∧
      entry.args.map LogArg.payloadBytes = [excerpt] ∧
      excerpt <+: goBytes feedText ∧
      excerpt.length ≤ 500 ∧
      (∀ s : String, goBytes s <+: excerpt → s.length ≤ 500) ∧
      (goLen feedText ≤ 500 → excerpt = goBytes feedText) ∧
      (500 < goLen feedText → excerpt = (goBytes feedText).take 500) := by
  rw [run_feed_decode_fail state topicID topicText feedText topicInfo e h1 h2 h3 h4 h5 h6]
  have hchars : ∀ (excerpt : List UInt8), excerpt.length ≤ 500 →
      ∀ s : String, goBytes s <+: excerpt → s.length ≤ 500 := by
    intro excerpt hle s hs
    have := length_le_goLen s
    have := List.IsPrefix.length_le hs
    unfold goLen at *
    omega
  by_cases hlen : goLen feedText > 500
  · have hle : ((goBytes feedText).take 500).length ≤ 500 := by simp
    refine ⟨feedDecodeLog feedText, (goBytes feedText).take 500, rfl, ?_, ?_, hle,
      hchars _ hle, ?_, ?_⟩
    · simp [feedDecodeLog, hlen, LogArg.payloadBytes, goSliceTo]
    · exact List.take_prefix _ _
    · intro h; omega
    · intro _; rfl
  · have hle : (goBytes feedText).length ≤ 500 := by unfold goLen at hlen; omega
    refine ⟨feedDecodeLog feedText, goBytes feedText, rfl, ?_, ?_, hle, hchars _ hle, ?_, ?_⟩
    · simp [feedDecodeLog, hlen, LogArg.payloadBytes]
    · exact List.prefix_refl _
    · intro _; rfl
    · intro h; omega

/-- C7, at a state tree whose feed list is the string `oops`: the excerpt is
the whole six-byte payload `"oops"`. -/
theorem feed_decode_excerpt_witness :
    ∃ entry,
      (GetTopicFeeds (readyPage fixtureBadFeeds) "t").logs.getLast? = some entry ∧
      entry.args.map LogArg.payloadBytes = [goBytes "\"oops\""] ∧
      (goBytes "\"oops\"").length = 6 := by
  obtain ⟨entry, excerpt, hl, ha, -, -, -, hw, -⟩ := feed_decode_excerpt fixtureBadFeeds "t"
    "\x7b\"name\":\"Coffee\",\"desc\":\"d\",\"viewNumText\":\"10万\",\"discussCommentNumText\":\"200\"\x7d"
    "\"oops\"" ⟨"Coffee", "d", "10万", "200"⟩
    (.typeMismatch "string" "[]xiaohongshu.TopicFeed")
    (by rfl) (by decide) (by rfl) (by rfl) (by decide) (by rfl)
  have he := hw (by decide)
  subst he
  exact ⟨entry, hl, ha, by decide⟩

theorem quoteBody_replicate_a (n : Nat) :
    quoteBody (List.replicate n 'a') = List.replicate n 'a' := by
  induction n with
  | zero => rfl
  | succ n ih =>
    have : quoteChar 'a' = ['a'] := by rfl
    simp [List.replicate_succ, quoteBody, this, ih]

theorem stringify_replicate_a (n : Nat) :
    JSON.stringify (.str (String.mk (List.replicate n 'a'))) =
      some (String.mk ('"' :: (List.replicate n 'a' ++ ['"']))) := by
  simp [JSON.stringify, stringifyChars, quoteJSONString, quoteBody_replicate_a]

theorem goLen_quoted_replicate_a (n : Nat) :
    goLen (String.mk ('"' :: (List.replicate n 'a' ++ ['"']))) = n + 2 := by
  have h1 : ∀ m, (List.flatMap (List.replicate m 'a') String.utf8EncodeChar).length = m := by
    intro m
    induction m with
    | zero => rfl
    | succ m ih =>
      have : (String.utf8EncodeChar 'a').length = 1 := by rfl
      rw [List.replicate_succ, List.flatMap_cons, List.length_append, this, ih]
      omega
  have h2 : (String.utf8EncodeChar '"').length = 1 := by rfl
  simp only [goLen, goBytes, List.flatMap_cons, List.flatMap_append, List.length_append, h1, h2,
    List.flatMap_nil, List.length_nil]
  omega

/-- The topic-info locator on a state tree built by `stateOf`. -/
theorem topicInfoScript_stateOf (pageInfo feedList : JSVal) (h : truthy pageInfo = true) :
    topicInfoScript (stateOf pageInfo feedList) = .ok (JSON.stringify pageInfo) := by
  have e3 : unwrapContainer (.obj [("value", .obj [("pageInfo", pageInfo)])]) =
      .ok (.obj [("pageInfo", pageInfo)]) := rfl
  have e4 : getProp (.obj [("pageInfo", pageInfo)]) "pageInfo" = .ok pageInfo := rfl
  have e1 : getProp (stateOf pageInfo feedList) "topic" = .ok (.obj [
    ("topicData", .obj [("value", .obj [("pageInfo", pageInfo)])]),
    ("topicNotes", .obj [("value", feedList)])]) := rfl
  have e2 : getProp (.obj [
    ("topicData", .obj [("value", .obj [("pageInfo", pageInfo)])]),
    ("topicNotes", .obj [("value", feedList)])]) "topicData" =
      .ok (.obj [("value", .obj [("pageInfo", pageInfo)])]) := rfl
  have t0 : truthy (stateOf pageInfo feedList) = true := rfl
  have t1 : ∀ ps, truthy (JSVal.obj ps) = true := fun _ => rfl
  unfold topicInfoScript
  simp only [t0, e1, t1, e2, e3, e4, h, bind, Except.bind, if_true, pure, Except.pure]

/-- The feed-list locator on a state tree built by `stateOf`. -/
theorem feedsScript_stateOf (pageInfo feedList : JSVal) (h : truthy feedList = true) :
    feedsScript (stateOf pageInfo feedList) = .ok (JSON.stringify feedList) := by
  have hd : feedList.isDefined = true := by
    cases feedList <;> first | rfl | simp [truthy] at h
  have e3 : unwrapContainer (.obj [("value", feedList)]) = .ok feedList := by
    simp [unwrapContainer, getProp, List.lookup, hd, bind, Except.bind, pure, Except.pure]
  have e1 : getProp (stateOf pageInfo feedList) "topic" = .ok (.obj [
    ("topicData", .obj [("value", .obj [("pageInfo", pageInfo)])]),
    ("topicNotes", .obj [("value", feedList)])]) := rfl
  have e2 : getProp (.obj [
    ("topicData", .obj [("value", .obj [("pageInfo", pageInfo)])]),
    ("topicNotes", .obj [("value", feedList)])]) "topicNotes" =
      .ok (.obj [("value", feedList)]) := rfl
  have t0 : truthy (stateOf pageInfo feedList) = true := rfl
  have t1 : ∀ ps, truthy (JSVal.obj ps) = true := fun _ => rfl
  unfold feedsScript
  simp only [t0, e1, t1, e2, e3, h, bind, Except.bind, if_true, pure, Except.pure]

theorem stringify_ne_empty (v : JSVal) (t : String) (h : JSON.stringify v = some t) : t ≠ "" := by
  unfold JSON.stringify at h
  cases hs : stringifyChars v with
  | none => simp [hs] at h
  | some cs =>
    simp [hs] at h
    subst h
    have he : elemText v = cs := by simp [elemText, hs]
    obtain ⟨c, r, hc, -⟩ := elemText_head v
    rw [he] at hc
    subst hc
    intro h
    have := congrArg String.data h
    simp at this

/-- Whenever the located topic-info text fails to decode, the log line of the
failure carries the whole text, whatever its length. -/
theorem topic_decode_logs_whole_payload (state : JSVal) (topicID t : String) (e : JsonErr)
    (h1 : topicInfoScript state = .ok (some t)) (h2 : t ≠ "")
    (h3 : unmarshalTopicInfo t = .error e) :
    (GetTopicFeeds (readyPage state) topicID).logs.getLast? =
        some ⟨.error, "解析话题信息失败，原始数据: %s", [.text t]⟩ ∧
      (GetTopicFeeds (readyPage state) topicID).outcome =
        .returned none (some (.wrap "解析话题信息失败: %w" e)) := by
  rw [run_topic_decode_fail state topicID t e h1 h2 h3]
  exact ⟨rfl, rfl⟩

/-- C8, at a page info that is a string of 600 letters: the located text has
602 bytes and does not decode into a `TopicInfo`, and the log line of the
failure carries all 602 bytes, not an excerpt of at most 500. -/
theorem topic_decode_logs_602_bytes :
    topicInfoScript fixtureLongPageInfo = .ok (some longPayload) ∧
      goLen longPayload = 602 ∧
      (GetTopicFeeds (readyPage fixtureLongPageInfo) "t").outcome =
        .returned none (some (.wrap "解析话题信息失败: %w"
          (.typeMismatch "string" "xiaohongshu.TopicInfo"))) ∧
      (GetTopicFeeds (readyPage fixtureLongPageInfo) "t").logs.getLast? =
        some ⟨.error, "解析话题信息失败，原始数据: %s", [.text longPayload]⟩ ∧
      (LogArg.text longPayload).payloadBytes.length = 602 := by
  have hst : JSON.stringify (.str (String.mk (List.replicate 600 'a'))) = some longPayload :=
    stringify_replicate_a 600
  have hs : topicInfoScript fixtureLongPageInfo = .ok (some longPayload) := by
    rw [← hst]
    exact topicInfoScript_stateOf _ _ (by decide)
  have hne : longPayload ≠ "" := stringify_ne_empty _ _ hst
  have hu : unmarshalTopicInfo longPayload =
      .error (.typeMismatch "string" "xiaohongshu.TopicInfo") := by
    rw [unmarshalTopicInfo_stringify _ _ hst]
    rfl
  have hlen : goLen longPayload = 602 := goLen_quoted_replicate_a 600
  obtain ⟨hl, ho⟩ := topic_decode_logs_whole_payload fixtureLongPageInfo "t" longPayload _ hs hne hu
  exact ⟨hs, hlen, ho, hl, hlen⟩
theorem decodeFeedElems_forall₂ (js : List Json) :
    ∀ fs, decodeFeedElems js = .ok fs → List.Forall₂ (fun j f => decodeTopicFeed j = .ok f) js fs := by
  induction js with
  | nil =>
    intro fs h
    simp [decodeFeedElems] at h
    subst h
    exact List.Forall₂.nil
  | cons j js ih =>
    intro fs h
    unfold decodeFeedElems at h
    cases hj : decodeTopicFeed j with
    | error e => simp [hj] at h
    | ok f =>
      cases hr : decodeFeedElems js with
      | error e => simp [hj, hr] at h
      | ok rest =>
        simp [hj, hr] at h
        subst h
        exact List.Forall₂.cons hj (ih rest hr)

theorem toJsonElems_eq_map (xs : List JSVal) : toJsonElems xs = xs.map toJson := by
  induction xs with
  | nil => rfl
  | cons x xs ih => simp [toJsonElems, ih]

theorem decodeFeedElems_length (js : List Json) (fs : List TopicFeed)
    (h : decodeFeedElems js = .ok fs) : fs.length = js.length :=
  (List.Forall₂.length_eq (decodeFeedElems_forall₂ js fs h)).symm

theorem decodeFeedElems_replicate_empty (n : Nat) :
    decodeFeedElems (List.replicate n (Json.obj [])) = .ok (List.replicate n TopicFeed.zero) := by
  induction n with
  | zero => rfl
  | succ n ih =>
    have h0 : decodeTopicFeed (Json.obj []) = .ok TopicFeed.zero := rfl
    simp [List.replicate_succ, decodeFeedElems, h0, ih]

theorem toJsonElems_replicate_empty (n : Nat) :
    toJsonElems (List.replicate n (JSVal.obj [])) = List.replicate n (Json.obj []) := by
  rw [toJsonElems_eq_map, List.map_replicate]
  rfl

/-- C1: every response `GetTopicFeeds` returns has `Count` equal to the
length of `Feeds`; when the feed list the locator found is the array `xs`,
both equal the length of `xs`; and for every `n`, zero and one included,
there is a state tree with an `n`-element feed list on which the call
returns a response with `Count = n`. -/
theorem count_eq_feeds_length :
    (∀ page topicID r err, (GetTopicFeeds page topicID).outcome = .returned (some r) err →
      r.Count = r.Feeds.length) ∧
    (∀ state topicID r xs, feedsScript state = .ok (JSON.stringify (.arr xs)) →
      (GetTopicFeeds (readyPage state) topicID).outcome = .returned (some r) none →
      r.Feeds.length = xs.length ∧ r.Count = xs.length) ∧
    (∀ n topicID, ∃ r,
      (GetTopicFeeds (readyPage (stateOf (.obj []) (.arr (List.replicate n (.obj [])))))
        topicID).outcome = .returned (some r) none ∧
      r.Count = n ∧ r.Feeds.length = n) := by
  refine ⟨?_, ?_, ?_⟩
  · intro page topicID r err h
    rw [run_returned_ready page topicID _ _ h] at h
    rcases run_cases page.state topicID with ⟨d, -, -, h'⟩ | ⟨t, e, -, -, -, h'⟩ |
      ⟨t, ti, -, -, -, -, h'⟩ | ⟨t, ti, ft, e, -, -, -, -, -, -, h'⟩ |
      ⟨t, ti, ft, feeds, -, -, -, -, -, -, h'⟩
    all_goals rw [h'] at h
    all_goals simp at h
    obtain ⟨hr, -⟩ := h
    subst hr
    rfl
  · intro state topicID r xs hf h
    rcases run_cases state topicID with ⟨d, -, -, h'⟩ | ⟨t, e, -, -, -, h'⟩ |
      ⟨t, ti, -, -, -, -, h'⟩ | ⟨t, ti, ft, e, -, -, -, -, -, -, h'⟩ |
      ⟨t, ti, ft, feeds, -, -, -, hft, -, hu, h'⟩
    all_goals rw [h'] at h
    all_goals simp at h
    subst h
    rw [hf] at hft
    have hs : JSON.stringify (.arr xs) = some ft := by simpa using hft
    rw [unmarshalFeeds_stringify _ _ hs] at hu
    have hl := decodeFeedElems_length (toJsonElems xs) feeds (by simpa [decodeFeeds, toJson] using hu)
    rw [toJsonElems_eq_map, List.length_map] at hl
    exact ⟨hl, hl⟩
  · intro n topicID
    obtain ⟨t, ht⟩ := stringify_isSome_of_truthy (.obj []) rfl
    obtain ⟨ft, hft⟩ := stringify_isSome_of_truthy (.arr (List.replicate n (.obj []))) rfl
    have h1 := topicInfoScript_stateOf (.obj []) (.arr (List.replicate n (.obj []))) rfl
    have h4 := feedsScript_stateOf (.obj []) (.arr (List.replicate n (.obj []))) rfl
    rw [ht] at h1
    rw [hft] at h4
    have h3 : unmarshalTopicInfo t = .ok TopicInfo.zero := by
      rw [unmarshalTopicInfo_stringify _ _ ht]; rfl
    have h6 : unmarshalFeeds ft = .ok (List.replicate n TopicFeed.zero) := by
      rw [unmarshalFeeds_stringify _ _ hft]
      simp only [toJson, decodeFeeds]
      rw [toJsonElems_replicate_empty, decodeFeedElems_replicate_empty]
    refine ⟨⟨TopicInfo.zero, List.replicate n TopicFeed.zero, n⟩, ?_, rfl, by simp⟩
    rw [run_success _ topicID t ft _ _ h1 (stringify_ne_empty _ _ ht) h3 h4
      (stringify_ne_empty _ _ hft) h6]
    simp

/-- C1, on the end-to-end scenario: the response has one feed and
`Count = 1`. -/
theorem count_eq_feeds_length_witness :
    (GetTopicFeeds (readyPage specFixture) "t").outcome =
        .returned (some ⟨⟨"Coffee", "d", "10万", "200"⟩,
          [⟨"normal", "t1", "", TopicFeedUser.zero, TopicInteractionInfo.zero, 0, ""⟩], 1⟩) none ∧
      (1 : Nat) = [(⟨"normal", "t1", "", TopicFeedUser.zero, TopicInteractionInfo.zero, 0, ""⟩ :
        TopicFeed)].length :=
  ⟨by rfl, count_eq_feeds_length.1 (readyPage specFixture) "t"
    ⟨⟨"Coffee", "d", "10万", "200"⟩,
      [⟨"normal", "t1", "", TopicFeedUser.zero, TopicInteractionInfo.zero, 0, ""⟩], 1⟩ none
    (by rfl)⟩
theorem lookup_of_mem_nodup (ps : List (String × JSVal)) (k : String) (v : JSVal)
    (hn : (ps.map Prod.fst).Nodup) (hm : (k, v) ∈ ps) : ps.lookup k = some v := by
  induction ps with
  | nil => cases hm
  | cons p ps ih =>
    obtain ⟨a, b⟩ := p
    simp only [List.map_cons, List.nodup_cons] at hn
    rcases List.mem_cons.mp hm with h | h
    · cases h; simp [List.lookup]
    · have hne : k ≠ a := by
        intro h2; subst h2
        exact hn.1 (List.mem_map_of_mem Prod.fst h)
      have : (k == a) = false := by simpa using hne
      simp [List.lookup, this, ih hn.2 h]

theorem lookup_none_of_not_mem (ps : List (String × JSVal)) (k : String)
    (h : k ∉ ps.map Prod.fst) : ps.lookup k = none := by
  induction ps with
  | nil => rfl
  | cons p ps ih =>
    obtain ⟨a, b⟩ := p
    simp only [List.map_cons, List.mem_cons, not_or] at h
    have : (k == a) = false := by simpa using h.1
    simp [List.lookup, this, ih h.2]

theorem stringProp_cons_ne (k tag dflt : String) (v : JSVal) (ps : List (String × JSVal))
    (h : tag ≠ k) : stringProp ((k, v) :: ps) tag dflt = stringProp ps tag dflt := by
  have : (tag == k) = false := by simpa using h
  simp [stringProp, List.lookup, this]

theorem stringProp_cons_self (k dflt s : String) (ps : List (String × JSVal)) :
    stringProp ((k, .str s) :: ps) k dflt = s := by
  simp [stringProp, List.lookup]

theorem stringProp_of_not_mem (k dflt : String) (ps : List (String × JSVal))
    (h : k ∉ ps.map Prod.fst) : stringProp ps k dflt = dflt := by
  simp [stringProp, lookup_none_of_not_mem ps k h]

/-- Decoding the members written for an object whose keys are plain and
whose tagged properties are strings stores exactly the tagged strings. -/
theorem decodeMembers_topicInfo (ps : List (String × JSVal)) :
    ∀ cur : TopicInfo, plainKeys topicInfoTags ps →
      (∀ k v, (k, v) ∈ ps → k ∈ topicInfoTags → ∃ s, v = .str s) →
      decodeMembers TopicInfo.setField (toJsonProps ps) cur =
        .ok ⟨stringProp ps "name" cur.Name, stringProp ps "desc" cur.Desc,
          stringProp ps "viewNumText" cur.ViewNumText,
          stringProp ps "discussCommentNumText" cur.DiscussCommentNum⟩ := by
  induction ps with
  | nil => intro cur _ _; rfl
  | cons p ps ih =>
    obtain ⟨k, v⟩ := p
    intro cur hp hs
    obtain ⟨hnd, hfold⟩ := hp
    simp only [List.map_cons, List.nodup_cons] at hnd
    have hp' : plainKeys topicInfoTags ps :=
      ⟨hnd.2, fun a ha hna => hfold a (List.mem_cons_of_mem _ ha) hna⟩
    have hs' : ∀ a b, (a, b) ∈ ps → a ∈ topicInfoTags → ∃ s, b = .str s :=
      fun a b hab ha => hs a b (List.mem_cons_of_mem _ hab) ha
    by_cases hk : k ∈ topicInfoTags
    · obtain ⟨s, rfl⟩ := hs k v (List.mem_cons_self _ _) hk
      have hstep := ih
      simp only [topicInfoTags, List.mem_cons, List.mem_singleton, List.not_mem_nil,
        or_false] at hk
      rcases hk with rfl | rfl | rfl | rfl
      · have e : TopicInfo.setField "name" (.str s) cur = .ok { cur with Name := s } := rfl
        simp only [toJsonProps, JSVal.isDefined, if_true, toJson, decodeMembers, e]
        rw [ih _ hp' hs', stringProp_of_not_mem _ _ _ hnd.1, stringProp_cons_self,
          stringProp_cons_ne _ _ _ _ _ (by decide), stringProp_cons_ne _ _ _ _ _ (by decide),
          stringProp_cons_ne _ _ _ _ _ (by decide)]
      · have e : TopicInfo.setField "desc" (.str s) cur = .ok { cur with Desc := s } := rfl
        simp only [toJsonProps, JSVal.isDefined, if_true, toJson, decodeMembers, e]
        rw [ih _ hp' hs', stringProp_of_not_mem _ _ _ hnd.1, stringProp_cons_self,
          stringProp_cons_ne _ _ _ _ _ (by decide), stringProp_cons_ne _ _ _ _ _ (by decide),
          stringProp_cons_ne _ _ _ _ _ (by decide)]
      · have e : TopicInfo.setField "viewNumText" (.str s) cur =
            .ok { cur with ViewNumText := s } := rfl
        simp only [toJsonProps, JSVal.isDefined, if_true, toJson, decodeMembers, e]
        rw [ih _ hp' hs', stringProp_of_not_mem _ _ _ hnd.1, stringProp_cons_self,
          stringProp_cons_ne _ _ _ _ _ (by decide), stringProp_cons_ne _ _ _ _ _ (by decide),
          stringProp_cons_ne _ _ _ _ _ (by decide)]
      · have e : TopicInfo.setField "discussCommentNumText" (.str s) cur =
            .ok { cur with DiscussCommentNum := s } := rfl
        simp only [toJsonProps, JSVal.isDefined, if_true, toJson, decodeMembers, e]
        rw [ih _ hp' hs', stringProp_of_not_mem _ _ _ hnd.1, stringProp_cons_self,
          stringProp_cons_ne _ _ _ _ _ (by decide), stringProp_cons_ne _ _ _ _ _ (by decide),
          stringProp_cons_ne _ _ _ _ _ (by decide)]
    · have hnone := hfold k (List.mem_cons_self _ _) hk
      have e : ∀ j, TopicInfo.setField k j cur = .ok cur := by
        intro j; simp [TopicInfo.setField, hnone]
      have hne : ∀ tag, tag ∈ topicInfoTags → tag ≠ k := by
        intro tag ht h; subst h; exact hk ht
      have r1 := stringProp_cons_ne k "name" cur.Name v ps (hne _ (by decide))
      have r2 := stringProp_cons_ne k "desc" cur.Desc v ps (hne _ (by decide))
      have r3 := stringProp_cons_ne k "viewNumText" cur.ViewNumText v ps (hne _ (by decide))
      have r4 := stringProp_cons_ne k "discussCommentNumText" cur.DiscussCommentNum v ps
        (hne _ (by decide))
      rw [r1, r2, r3, r4]
      by_cases hd : v.isDefined = true
      · simp only [toJsonProps, hd, if_true, decodeMembers, e]
        exact ih cur hp' hs'
      · have hd2 : v.isDefined = false := by simpa using hd
        simp only [toJsonProps, hd2, decodeMembers]
        exact ih cur hp' hs'
theorem truthy_of_getProp (v w : JSVal) (k : String) (h : getProp v k = .ok w)
    (hw : truthy w = true) : truthy v = true := by
  cases v <;> simp [getProp] at h <;> first | rfl | (subst h; simp [truthy] at hw)

theorem isDefined_of_truthy (v : JSVal) (h : truthy v = true) : v.isDefined = true := by
  cases v <;> first | rfl | simp [truthy] at h

theorem unwrapContainer_of_value (c data : JSVal) (h : getProp c "value" = .ok data)
    (hd : truthy data = true) : unwrapContainer c = .ok data := by
  simp [unwrapContainer, h, isDefined_of_truthy data hd, bind, Except.bind, pure, Except.pure]

theorem topicInfoScript_of_path (state topic topicData data pageInfo : JSVal)
    (h1 : getProp state "topic" = .ok topic) (h2 : getProp topic "topicData" = .ok topicData)
    (h3 : getProp topicData "value" = .ok data) (h4 : getProp data "pageInfo" = .ok pageInfo)
    (hp : truthy pageInfo = true) :
    topicInfoScript state = .ok (JSON.stringify pageInfo) := by
  have t4 := truthy_of_getProp _ _ _ h4 hp
  have t3 := truthy_of_getProp _ _ _ h3 t4
  have t2 := truthy_of_getProp _ _ _ h2 t3
  have t1 := truthy_of_getProp _ _ _ h1 t2
  have hu := unwrapContainer_of_value _ _ h3 t4
  unfold topicInfoScript
  simp only [t1, t2, t3, t4, hp, h1, h2, h4, hu, bind, Except.bind, if_true, pure, Except.pure]

theorem feedsScript_of_path (state topic topicNotes feedList : JSVal)
    (h1 : getProp state "topic" = .ok topic) (h2 : getProp topic "topicNotes" = .ok topicNotes)
    (h3 : getProp topicNotes "value" = .ok feedList) (hp : truthy feedList = true) :
    feedsScript state = .ok (JSON.stringify feedList) := by
  have t3 := truthy_of_getProp _ _ _ h3 hp
  have t2 := truthy_of_getProp _ _ _ h2 t3
  have t1 := truthy_of_getProp _ _ _ h1 t2
  have hu := unwrapContainer_of_value _ _ h3 hp
  unfold feedsScript
  simp only [t1, t2, t3, hp, h1, h2, hu, bind, Except.bind, if_true, pure, Except.pure]

theorem decodeFeedElems_ok_of_forall (js : List Json)
    (h : ∀ j ∈ js, ∃ f, decodeTopicFeed j = .ok f) : ∃ fs, decodeFeedElems js = .ok fs := by
  induction js with
  | nil => exact ⟨[], rfl⟩
  | cons j js ih =>
    obtain ⟨f, hf⟩ := h j (List.mem_cons_self _ _)
    obtain ⟨fs, hfs⟩ := ih (fun a ha => h a (List.mem_cons_of_mem _ ha))
    exact ⟨f :: fs, by simp [decodeFeedElems, hf, hfs]⟩

theorem stringProp_of_lookup (ps : List (String × JSVal)) (tag dflt s : String)
    (h : ps.lookup tag = some (.str s)) : stringProp ps tag dflt = s := by
  simp [stringProp, h]

theorem mem_of_lookup (ps : List (String × JSVal)) (k : String) (v : JSVal)
    (h : ps.lookup k = some v) : (k, v) ∈ ps := by
  induction ps with
  | nil => simp [List.lookup] at h
  | cons p ps ih =>
    obtain ⟨a, b⟩ := p
    by_cases hk : k = a
    · subst hk
      simp [List.lookup] at h
      subst h
      exact List.mem_cons_self _ _
    · have : (k == a) = false := by simpa using hk
      simp [List.lookup, this] at h
      exact List.mem_cons_of_mem _ (ih h)

theorem digitChar_value (m : Nat) (h : m < 10) : (Nat.digitChar m).val.toNat - 48 = m := by
  interval_cases m <;> rfl

/-- The decimal digits of a number read back to the number. -/
theorem toDigitsCore_value (fuel : Nat) : ∀ (n : Nat) (ds : List Char), n < fuel →
    ∃ pre, Nat.toDigitsCore 10 fuel n ds = pre ++ ds ∧ pre ≠ [] ∧
      (∀ c ∈ pre, isDigit c = true) ∧
      pre.foldl (fun a c => a * 10 + (c.val.toNat - 48)) 0 = n := by
  induction fuel with
  | zero => intro n ds h; omega
  | succ fuel ih =>
    intro n ds h
    unfold Nat.toDigitsCore
    by_cases hq : n / 10 = 0
    · refine ⟨[Nat.digitChar (n % 10)], by simp [hq], by simp, ?_, ?_⟩
      · intro c hc
        simp at hc; subst hc; exact isDigit_digitChar _ (by omega)
      · simp only [List.foldl_cons, List.foldl_nil, digitChar_value _ (Nat.mod_lt n (by omega))]
        omega
    · obtain ⟨pre, he, -, hd, hv⟩ := ih (n / 10) (Nat.digitChar (n % 10) :: ds) (by omega)
      refine ⟨pre ++ [Nat.digitChar (n % 10)], by simp [hq, he], by simp, ?_, ?_⟩
      · intro c hc
        rcases List.mem_append.mp hc with h1 | h1
        · exact hd c h1
        · simp at h1; subst h1; exact isDigit_digitChar _ (by omega)
      · rw [List.foldl_append, hv]
        simp only [List.foldl_cons, List.foldl_nil, digitChar_value _ (Nat.mod_lt n (by omega))]
        omega

/-- The text of a safe integer reads back, as an `int64`, to that integer. -/
theorem parseInt64_numberToString (n : SafeInt) : parseInt64 (numberToString n) = some n.val := by
  obtain ⟨pre, he, hne, hd, hv⟩ := toDigitsCore_value (n.val.natAbs + 1) n.val.natAbs [] (by omega)
  rw [List.append_nil] at he
  have hsafe := n.safe
  unfold maxSafeInteger at hsafe
  have hall : pre.all isDigit = true := by
    rw [List.all_eq_true]; exact hd
  obtain ⟨d, body, rfl⟩ := List.exists_cons_of_ne_nil hne
  have hdm : d ≠ '-' := by
    intro h; subst h
    exact absurd (hd '-' (by simp)) (by decide)
  unfold numberToString Nat.toDigits
  rw [he]
  by_cases hn : n.val < 0
  · have hval : -((n.val.natAbs : Nat) : Int) = n.val := by omega
    simp only [hn, if_true, parseInt64, List.head?_cons, List.tail_cons, hall, hv]
    simp only [ne_eq, reduceCtorEq, not_false_eq_true, and_self, if_true, hval]
    rw [if_pos (by omega)]
  · have hval : ((n.val.natAbs : Nat) : Int) = n.val := by omega
    have hh : ¬ (some d = some '-') := by
      intro h; exact hdm (Option.some.inj h)
    simp only [hn, if_false, parseInt64, List.head?_cons, hh, hall, hv]
    simp only [ne_eq, reduceCtorEq, not_false_eq_true, and_self, if_true, hval]
    rw [if_pos (by omega)]

theorem decodeString_fits (v : JSVal) (cur : String) (h : fitsString v = true) :
    ∃ s, decodeString (toJson v) cur = .ok s := by
  cases v <;> simp [fitsString] at h <;> exact ⟨_, rfl⟩

theorem decodeBool_fits (v : JSVal) (cur : Bool) (h : fitsBool v = true) :
    ∃ b, decodeBool (toJson v) cur = .ok b := by
  cases v <;> simp [fitsBool] at h <;> exact ⟨_, rfl⟩

theorem decodeInt64_fits (v : JSVal) (cur : Int) (h : fitsInt64 v = true) :
    ∃ n, decodeInt64 (toJson v) cur = .ok n := by
  cases v with
  | num n => exact ⟨n.val, by simp [toJson, decodeInt64, parseInt64_numberToString]⟩
  | undefined => exact ⟨_, rfl⟩
  | null => exact ⟨_, rfl⟩
  | _ => simp [fitsInt64] at h

theorem findField_mem (tags : List String) (key tag : String)
    (h : findField tags key = some tag) : tag ∈ tags := by
  unfold findField at h
  by_cases hc : tags.contains key = true
  · simp only [hc, if_true, Option.some.injEq] at h
    subst h
    simpa using hc
  · simp only [hc] at h
    exact List.mem_of_find?_eq_some h

/-- Decoding the members written for an object succeeds when every member
is stored without error, whatever the value of the struct at that point. -/
theorem decodeMembers_ok {α : Type} (setField : String → Json → α → Except JsonErr α)
    (ps : List (String × JSVal))
    (h : ∀ p ∈ ps, ∀ cur, ∃ next, setField p.1 (toJson p.2) cur = .ok next) :
    ∀ cur, ∃ r, decodeMembers setField (toJsonProps ps) cur = .ok r := by
  induction ps with
  | nil => intro cur; exact ⟨cur, rfl⟩
  | cons p ps ih =>
    obtain ⟨k, v⟩ := p
    intro cur
    have ih' := ih (fun q hq => h q (List.mem_cons_of_mem _ hq))
    by_cases hd : v.isDefined = true
    · obtain ⟨next, hn⟩ := h (k, v) (List.mem_cons_self _ _) cur
      obtain ⟨r, hr⟩ := ih' next
      exact ⟨r, by simp [toJsonProps, hd, decodeMembers, hn, hr]⟩
    · have hd2 : v.isDefined = false := by simpa using hd
      obtain ⟨r, hr⟩ := ih' cur
      exact ⟨r, by simp [toJsonProps, hd2, hr]⟩

theorem propsFit_mem (fits : String → JSVal → Bool) (tags : List String)
    (ps : List (String × JSVal)) (h : propsFit fits tags ps = true) (p : String × JSVal)
    (hp : p ∈ ps) (tag : String) (ht : findField tags p.1 = some tag) : fits tag p.2 = true := by
  unfold propsFit at h
  rw [List.all_eq_true] at h
  have := h p hp
  simpa [ht] using this

theorem feedUser_setField_ok (k : String) (v : JSVal) (cur : TopicFeedUser)
    (h : ∀ tag, findField topicFeedUserTags k = some tag → fitsFeedUserField tag v = true) :
    ∃ next, TopicFeedUser.setField k (toJson v) cur = .ok next := by
  unfold TopicFeedUser.setField
  cases hf : findField topicFeedUserTags k with
  | none => exact ⟨cur, rfl⟩
  | some tag =>
    have hfit := h tag hf
    have hm := findField_mem _ _ _ hf
    simp only [topicFeedUserTags, List.mem_cons, List.mem_singleton, List.not_mem_nil,
      or_false] at hm
    rcases hm with rfl | rfl | rfl
    · obtain ⟨s, hs⟩ := decodeString_fits v cur.Nickname (by simpa [fitsFeedUserField] using hfit)
      simp [hs, Except.map]
    · obtain ⟨s, hs⟩ := decodeString_fits v cur.AvatarURL (by simpa [fitsFeedUserField] using hfit)
      simp [hs, Except.map]
    · obtain ⟨b, hb⟩ := decodeBool_fits v cur.IsForbidden (by simpa [fitsFeedUserField] using hfit)
      simp [hb, Except.map]

theorem interaction_setField_ok (k : String) (v : JSVal) (cur : TopicInteractionInfo)
    (h : ∀ tag, findField topicInteractionInfoTags k = some tag → fitsString v = true) :
    ∃ next, TopicInteractionInfo.setField k (toJson v) cur = .ok next := by
  unfold TopicInteractionInfo.setField
  cases hf : findField topicInteractionInfoTags k with
  | none => exact ⟨cur, rfl⟩
  | some tag =>
    have hfit := h tag hf
    have hm := findField_mem _ _ _ hf
    simp only [topicInteractionInfoTags, List.mem_cons, List.mem_singleton, List.not_mem_nil,
      or_false] at hm
    rcases hm with rfl | rfl | rfl
    · obtain ⟨s, hs⟩ := decodeString_fits v cur.LikeText hfit
      simp [hs, Except.map]
    · obtain ⟨s, hs⟩ := decodeString_fits v cur.CollectText hfit
      simp [hs, Except.map]
    · obtain ⟨s, hs⟩ := decodeString_fits v cur.CommentText hfit
      simp [hs, Except.map]

theorem decodeStruct_feedUser_ok (v : JSVal) (cur : TopicFeedUser) (h : fitsFeedUser v = true) :
    ∃ u, decodeStruct TopicFeedUser.setField "xiaohongshu.TopicFeedUser" (toJson v) cur
      = .ok u := by
  cases v with
  | obj ps =>
    simp only [fitsFeedUser] at h
    simp only [toJson, decodeStruct]
    exact decodeMembers_ok _ ps (fun p hp c =>
      feedUser_setField_ok p.1 p.2 c (fun tag ht => propsFit_mem _ _ ps h p hp tag ht)) cur
  | undefined => exact ⟨cur, rfl⟩
  | null => exact ⟨cur, rfl⟩
  | _ => simp [fitsFeedUser] at h

theorem decodeStruct_interaction_ok (v : JSVal) (cur : TopicInteractionInfo)
    (h : fitsInteractionInfo v = true) :
    ∃ u, decodeStruct TopicInteractionInfo.setField "xiaohongshu.TopicInteractionInfo"
      (toJson v) cur = .ok u := by
  cases v with
  | obj ps =>
    simp only [fitsInteractionInfo] at h
    simp only [toJson, decodeStruct]
    exact decodeMembers_ok _ ps (fun p hp c =>
      interaction_setField_ok p.1 p.2 c (fun tag ht => propsFit_mem _ _ ps h p hp tag ht)) cur
  | undefined => exact ⟨cur, rfl⟩
  | null => exact ⟨cur, rfl⟩
  | _ => simp [fitsInteractionInfo] at h

theorem feed_setField_ok (k : String) (v : JSVal) (cur : TopicFeed)
    (h : ∀ tag, findField topicFeedTags k = some tag → fitsFeedField tag v = true) :
    ∃ next, TopicFeed.setField k (toJson v) cur = .ok next := by
  unfold TopicFeed.setField
  cases hf : findField topicFeedTags k with
  | none => exact ⟨cur, rfl⟩
  | some tag =>
    have hfit := h tag hf
    have hm := findField_mem _ _ _ hf
    simp only [topicFeedTags, List.mem_cons, List.mem_singleton, List.not_mem_nil,
      or_false] at hm
    rcases hm with rfl | rfl | rfl | rfl | rfl | rfl | rfl
    · obtain ⟨s, hs⟩ := decodeString_fits v cur.Type_ (by simpa [fitsFeedField] using hfit)
      simp [hs, Except.map]
    · obtain ⟨s, hs⟩ := decodeString_fits v cur.Title (by simpa [fitsFeedField] using hfit)
      simp [hs, Except.map]
    · obtain ⟨s, hs⟩ := decodeString_fits v cur.Desc (by simpa [fitsFeedField] using hfit)
      simp [hs, Except.map]
    · obtain ⟨u, hu⟩ := decodeStruct_feedUser_ok v cur.User (by simpa [fitsFeedField] using hfit)
      simp [hu, Except.map]
    · obtain ⟨u, hu⟩ := decodeStruct_interaction_ok v cur.InteractionInfo
        (by simpa [fitsFeedField] using hfit)
      simp [hu, Except.map]
    · obtain ⟨n, hn⟩ := decodeInt64_fits v cur.CreateTime (by simpa [fitsFeedField] using hfit)
      simp [hn, Except.map]
    · obtain ⟨s, hs⟩ := decodeString_fits v cur.CursorScore (by simpa [fitsFeedField] using hfit)
      simp [hs, Except.map]

/-- Every feed object decodes into a feed. -/
theorem decodeTopicFeed_ok_of_isFeedObject (x : JSVal) (h : isFeedObject x = true) :
    ∃ f, decodeTopicFeed (toJson x) = .ok f := by
  cases x with
  | obj ps =>
    simp only [isFeedObject] at h
    simp only [toJson, decodeTopicFeed, decodeStruct]
    exact decodeMembers_ok _ ps (fun p hp c =>
      feed_setField_ok p.1 p.2 c (fun tag ht => propsFit_mem _ _ ps h p hp tag ht)) TopicFeed.zero
  | _ => simp [isFeedObject] at h

/-- C5, as stated, fails: next to the string field `name` = `Coffee` the page
info may hold a key `NAME`; the decoder stores it into `Name` as well, and
the response has `Topic.Name` = `Tea`. -/
theorem case_variant_key_overrides_name :
    getProp caseVariantPageInfo "name" = .ok (.str "Coffee") ∧
      (GetTopicFeeds (readyPage fixtureCaseVariant) "t").outcome =
        .returned (some ⟨⟨"Tea", "d", "10万", "200"⟩,
          [⟨"normal", "t1", "", TopicFeedUser.zero, TopicInteractionInfo.zero, 0, ""⟩], 1⟩)
          none := by
  constructor <;> rfl

/-- C5, amended: when `topic.topicData.value.pageInfo` is an object with
pairwise distinct keys, with string fields `name`, `desc`, `viewNumText` and
`discussCommentNumText` and with no other key that matches one of these four
up to case, and `topic.topicNotes.value` is an array of feed objects,
`GetTopicFeeds` returns a response and a nil error; the topic holds the four
strings, `Feeds` has the length of the array, its elements are the decodings
of the array's elements in order, and `Count` is that length. -/
theorem topic_and_feeds_decoded (state topic topicData data topicNotes : JSVal)
    (pf : List (String × JSVal)) (xs : List JSVal) (name desc view discuss topicID : String)
    (h1 : getProp state "topic" = .ok topic)
    (h2 : getProp topic "topicData" = .ok topicData)
    (h3 : getProp topicData "value" = .ok data)
    (h4 : getProp data "pageInfo" = .ok (.obj pf))
    (h5 : getProp topic "topicNotes" = .ok topicNotes)
    (h6 : getProp topicNotes "value" = .ok (.arr xs))
    (hname : pf.lookup "name" = some (.str name))
    (hdesc : pf.lookup "desc" = some (.str desc))
    (hview : pf.lookup "viewNumText" = some (.str view))
    (hdiscuss : pf.lookup "discussCommentNumText" = some (.str discuss))
    (hkeys : plainKeys topicInfoTags pf)
    (hfeeds : ∀ x ∈ xs, isFeedObject x = true) :
    ∃ feeds,
      (GetTopicFeeds (readyPage state) topicID).outcome =
        .returned (some ⟨⟨name, desc, view, discuss⟩, feeds, xs.length⟩) none ∧
      feeds.length = xs.length ∧
      List.Forall₂ (fun x f => decodeTopicFeed (toJson x) = .ok f) xs feeds := by
  obtain ⟨t, ht⟩ := stringify_isSome_of_truthy (.obj pf) rfl
  obtain ⟨ft, hft⟩ := stringify_isSome_of_truthy (.arr xs) rfl
  have s1 := topicInfoScript_of_path state topic topicData data (.obj pf) h1 h2 h3 h4 rfl
  have s4 := feedsScript_of_path state topic topicNotes (.arr xs) h1 h5 h6 rfl
  rw [ht] at s1
  rw [hft] at s4
  have hstr : ∀ k v, (k, v) ∈ pf → k ∈ topicInfoTags → ∃ s, v = .str s := by
    intro k v hm hk
    have hl := lookup_of_mem_nodup pf k v hkeys.1 hm
    simp only [topicInfoTags, List.mem_cons, List.mem_singleton, List.not_mem_nil,
      or_false] at hk
    rcases hk with rfl | rfl | rfl | rfl
    · rw [hname] at hl; exact ⟨name, (Option.some.inj hl).symm⟩
    · rw [hdesc] at hl; exact ⟨desc, (Option.some.inj hl).symm⟩
    · rw [hview] at hl; exact ⟨view, (Option.some.inj hl).symm⟩
    · rw [hdiscuss] at hl; exact ⟨discuss, (Option.some.inj hl).symm⟩
  have u3 : unmarshalTopicInfo t = .ok ⟨name, desc, view, discuss⟩ := by
    rw [unmarshalTopicInfo_stringify _ _ ht]
    simp only [toJson, decodeTopicInfo, decodeStruct]
    rw [decodeMembers_topicInfo pf TopicInfo.zero hkeys hstr, stringProp_of_lookup _ _ _ _ hname,
      stringProp_of_lookup _ _ _ _ hdesc, stringProp_of_lookup _ _ _ _ hview,
      stringProp_of_lookup _ _ _ _ hdiscuss]
  obtain ⟨feeds, hfs⟩ := decodeFeedElems_ok_of_forall (toJsonElems xs) (by
    intro j hj
    rw [toJsonElems_eq_map] at hj
    obtain ⟨x, hx, rfl⟩ := List.mem_map.mp hj
    exact decodeTopicFeed_ok_of_isFeedObject x (hfeeds x hx))
  have u6 : unmarshalFeeds ft = .ok feeds := by
    rw [unmarshalFeeds_stringify _ _ hft]
    simpa [toJson, decodeFeeds] using hfs
  have hall := decodeFeedElems_forall₂ _ _ hfs
  rw [toJsonElems_eq_map, List.forall₂_map_left_iff] at hall
  have hlen : feeds.length = xs.length := (List.Forall₂.length_eq hall).symm
  refine ⟨feeds, ?_, hlen, hall⟩
  rw [run_success state topicID t ft _ feeds s1 (stringify_ne_empty _ _ ht) u3 s4
    (stringify_ne_empty _ _ hft) u6, hlen]

/-- C5, amended, on the end-to-end scenario (`Topic.Name` is `Coffee`, there
is one feed, its title is `t1`, and `Count` is 1) and on the scenario with a
second feed that has every field (both feeds are returned in page order,
with every field of the second one, and `Count` is 2). -/
theorem topic_and_feeds_decoded_witness :
    (GetTopicFeeds (readyPage specFixture) "t").outcome =
        .returned (some ⟨⟨"Coffee", "d", "10万", "200"⟩,
          [⟨"normal", "t1", "", TopicFeedUser.zero, TopicInteractionInfo.zero, 0, ""⟩], 1⟩)
          none ∧
      (GetTopicFeeds (readyPage fixtureTwoFeeds) "t").outcome =
        .returned (some ⟨⟨"Coffee", "d", "10万", "200"⟩,
          [⟨"normal", "t1", "", TopicFeedUser.zero, TopicInteractionInfo.zero, 0, ""⟩,
            ⟨"video", "t2", "x", ⟨"u", "a.png", true⟩, ⟨"1", "2", "3"⟩, 1700000000000, "c"⟩],
          2⟩) none := by
  have hd1 : decodeTopicFeed (toJson feedT1) =
      .ok ⟨"normal", "t1", "", TopicFeedUser.zero, TopicInteractionInfo.zero, 0, ""⟩ := by rfl
  have hd2 : decodeTopicFeed (toJson feedFull) =
      .ok ⟨"video", "t2", "x", ⟨"u", "a.png", true⟩, ⟨"1", "2", "3"⟩, 1700000000000, "c"⟩ := by
    rfl
  constructor
  · obtain ⟨feeds, ho, -, hall⟩ := topic_and_feeds_decoded specFixture
      (.obj [("topicData", .obj [("value", .obj [("pageInfo", coffeePageInfo)])]),
        ("topicNotes", .obj [("value", .arr [feedT1])])])
      (.obj [("value", .obj [("pageInfo", coffeePageInfo)])])
      (.obj [("pageInfo", coffeePageInfo)])
      (.obj [("value", .arr [feedT1])])
      [("name", .str "Coffee"), ("desc", .str "d"), ("viewNumText", .str "10万"),
        ("discussCommentNumText", .str "200")]
      [feedT1] "Coffee" "d" "10万" "200" "t"
      (by rfl) (by rfl) (by rfl) (by rfl) (by rfl) (by rfl) (by rfl) (by rfl) (by rfl) (by rfl)
      ⟨by decide, by decide⟩ (by decide)
    cases hall with
    | cons hf hrest =>
      cases hrest
      rw [hd1] at hf
      cases hf
      exact ho
  · obtain ⟨feeds, ho, -, hall⟩ := topic_and_feeds_decoded fixtureTwoFeeds
      (.obj [("topicData", .obj [("value", .obj [("pageInfo", coffeePageInfo)])]),
        ("topicNotes", .obj [("value", .arr [feedT1, feedFull])])])
      (.obj [("value", .obj [("pageInfo", coffeePageInfo)])])
      (.obj [("pageInfo", coffeePageInfo)])
      (.obj [("value", .arr [feedT1, feedFull])])
      [("name", .str "Coffee"), ("desc", .str "d"), ("viewNumText", .str "10万"),
        ("discussCommentNumText", .str "200")]
      [feedT1, feedFull] "Coffee" "d" "10万" "200" "t"
      (by rfl) (by rfl) (by rfl) (by rfl) (by rfl) (by rfl) (by rfl) (by rfl) (by rfl) (by rfl)
      ⟨by decide, by decide⟩ (by decide)
    cases hall with
    | cons hf hrest =>
      cases hrest with
      | cons hf2 hrest2 =>
        cases hrest2
        rw [hd1] at hf
        rw [hd2] at hf2
        cases hf
        cases hf2
        exact ho

end Xhs
